import Mathlib

/-!
Verification of the rules engine of a grid-based multiplayer snake game
(a fork of the Battlesnake rules repository).

The development shallowly embeds the Go sources:

* `solo.go` — the Solo ruleset and its game-over stage (`GameOverSolo`);
* the Squad ruleset file — `ResurrectSnakesSquad`, `ShareAttributesSquad`,
  `GameOverSquad`, `SquadRuleset.Settings`, `SquadRuleset.IsGameOver`,
  `SquadRuleset.CreateNextBoardState`;
* `cli/commands/play.go` — the driver's `createNextBoardState`.

Go functions that mutate a board through a pointer are embedded in explicit
state-passing style: a stage becomes
`BoardState → Settings → List SnakeMove → Except String (Bool × BoardState)`,
mirroring the Go signature `(b *BoardState, …) (bool, error)` together with
the final contents of `*b`.  Machine integers only ever get compared or
copied in the embedded code, so `Int` models Go `int` fields exactly.
Library code that the repository calls but does not itself contain
(the pipeline engine and the standard stages) is modelled from the
specification; each such definition is marked `Modelled from the spec:`.
-/

/-- A grid coordinate (Go `rules.Point`). -/
structure Point where
  x : Int
  y : Int
deriving DecidableEq, Repr

/-- The elimination causes (Go string constants `NotEliminated`,
`EliminatedByCollision`, …).  Go encodes them as strings; only equality on
them is ever used, so an enumeration is a faithful model. -/
inductive ElimCause where
  | NotEliminated
  | EliminatedByCollision
  | EliminatedBySelfCollision
  | EliminatedByOutOfHealth
  | EliminatedByHeadToHeadCollision
  | EliminatedByOutOfBounds
  | EliminatedBySquad
deriving DecidableEq, Repr

open ElimCause

/-- Go `rules.Snake`. -/
structure Snake where
  id : String
  Body : List Point
  Health : Int
  EliminatedCause : ElimCause
  EliminatedBy : String
  EliminatedOnTurn : Int
deriving DecidableEq, Repr

/-- Go `rules.BoardState`. -/
structure BoardState where
  Width : Int
  Height : Int
  Turn : Int
  Food : List Point
  Hazards : List Point
  Snakes : List Snake
deriving DecidableEq, Repr

/-- Go `rules.SnakeMove`. -/
structure SnakeMove where
  id : String
  Move : String
deriving DecidableEq, Repr

/-- Go map indexing `m[k]` on a `map[string]string`: the zero value `""` is
returned for a missing key.  The map itself is modelled as an association
list. -/
def mapGet (m : List (String × String)) (k : String) : String :=
  match m.find? (fun p => p.1 == k) with
  | some p => p.2
  | none => ""

/-- Go `rules.SquadSettings` (the squad sub-settings inside `Settings`). -/
structure SquadSettings where
  squadMap : List (String × String)
  AllowBodyCollisions : Bool
  SharedElimination : Bool
  SharedHealth : Bool
  SharedLength : Bool
deriving DecidableEq, Repr

/-- Go `rules.Settings` (the fields the embedded code reads). -/
structure Settings where
  FoodSpawnChance : Int
  MinimumFood : Int
  HazardDamagePerTurn : Int
  squadSettings : SquadSettings
deriving DecidableEq, Repr

/-- Modelled from the spec: the library helper `IsInitialisation` is not in
the repository; the spec identifies the initialization turn "by the presence
of no prior moves", i.e. an empty move list. -/
def IsInitialisation (_b : BoardState) (_settings : Settings) (moves : List SnakeMove) : Bool :=
  moves.isEmpty

/-- `areSnakeIDsOnSameSquad` from the squad file: two snake ids are on the
same squad when the squad map assigns them equal squad ids. -/
def areSnakeIDsOnSameSquad (squadMap : List (String × String)) (snakeID otherID : String) : Bool :=
  mapGet squadMap snakeID == mapGet squadMap otherID

/-- `areSnakesOnSameSquad` from the squad file. -/
def areSnakesOnSameSquad (squadMap : List (String × String)) (snake other : Snake) : Bool :=
  areSnakeIDsOnSameSquad squadMap snake.id other.id

/-- Modelled from the spec: the library helper `growSnake` is not in the
repository; the spec describes growth as "duplicating its tail segment".
On an empty body it is a no-op. -/
def growSnake (s : Snake) : Snake :=
  match s.Body.getLast? with
  | some t => { s with Body := s.Body ++ [t] }
  | none => s

/-- Growth increases the body length by exactly one on a non-empty body. -/
theorem growSnake_length_of_ne_nil (s : Snake) (h : s.Body ≠ []) :
    (growSnake s).Body.length = s.Body.length + 1 := by
  unfold growSnake
  cases hl : s.Body.getLast? with
  | none => exact absurd (List.getLast?_eq_none_iff.mp hl) h
  | some t => simp

/-- The `for len(snake.Body) < len(other.Body)` loop of
`ShareAttributesSquad`: keep growing until the body reaches length `n`.  In
Go this loop does not terminate on an empty body (where `growSnake` is a
no-op); the zero-length consistency check in `ShareAttributesSquad` runs
before the loop, so that situation is unreachable, and the embedding exits
the loop there. -/
def growSnakeTo (s : Snake) (n : Nat) : Snake :=
  if h : s.Body.length < n then
    if hb : s.Body = [] then s
    else growSnakeTo (growSnake s) n
  else s
termination_by n - s.Body.length
decreasing_by
  rw [growSnake_length_of_ne_nil s hb]
  omega

/-- One inner-loop iteration of `ShareAttributesSquad`, for outer snake
`snake` against `other`: raise health, grow to the other's length (a
zero-length body on either side is a consistency fault), and share
elimination (`EliminatedBy` intentionally left empty).  Exactly the guarded
updates of the Go loop body, in their source order. -/
def shareWithOther (ss : SquadSettings) (snake other : Snake) : Except String Snake :=
  if areSnakesOnSameSquad ss.squadMap snake other then
    let s1 :=
      if ss.SharedHealth && snake.Health < other.Health then
        { snake with Health := other.Health }
      else snake
    match (if ss.SharedLength then
        (if s1.Body.length == 0 || other.Body.length == 0 then
          .error "found snake of zero length"
        else .ok (growSnakeTo s1 other.Body.length))
      else .ok s1 : Except String Snake) with
    | .error e => .error e
    | .ok s2 =>
      .ok (if ss.SharedElimination &&
              s2.EliminatedCause == NotEliminated &&
              !(other.EliminatedCause == NotEliminated) then
        { s2 with EliminatedCause := EliminatedBySquad, EliminatedBy := "" }
      else s2)
  else .ok snake

/-- The inner `j` loop of `ShareAttributesSquad`, threading the outer snake
`s` (the element at index `i`).  Go reads `other` through a pointer into the
snake array; when `j = i` that pointer aliases the snake being updated, so
the embedding substitutes the current accumulator there. -/
def shareInner (ss : SquadSettings) (snakes : List Snake) (i : Nat) (j : Nat) (s : Snake) :
    Except String Snake :=
  if h : j < snakes.length then
    match shareWithOther ss s (if j = i then s else snakes.get ⟨j, h⟩) with
    | .error e => .error e
    | .ok s' => shareInner ss snakes i (j + 1) s'
  else .ok s
termination_by snakes.length - j

/-- The outer `i` loop of `ShareAttributesSquad`: skip eliminated snakes,
run the inner loop on the rest, and write the updated snake back into the
array. -/
def shareOuter (ss : SquadSettings) (snakes : List Snake) (i : Nat) :
    Except String (List Snake) :=
  if h : i < snakes.length then
    let s := snakes.get ⟨i, h⟩
    if !(s.EliminatedCause == NotEliminated) then
      shareOuter ss snakes (i + 1)
    else
      match shareInner ss snakes i 0 s with
      | .error e => .error e
      | .ok s' => shareOuter ss (snakes.set i s') (i + 1)
  else .ok snakes
termination_by snakes.length - i
decreasing_by
  all_goals simp
  all_goals omega

/-- `ShareAttributesSquad` from the squad file. -/
def ShareAttributesSquad (b : BoardState) (settings : Settings) (moves : List SnakeMove) :
    Except String (Bool × BoardState) :=
  if IsInitialisation b settings moves then .ok (false, b)
  else
    let squadSettings := settings.squadSettings
    if !(squadSettings.SharedElimination || squadSettings.SharedLength ||
        squadSettings.SharedHealth) then
      .ok (false, b)
    else
      match shareOuter squadSettings b.Snakes 0 with
      | .error e => .error e
      | .ok snakes => .ok (false, { b with Snakes := snakes })

/-- `GameOverSolo` from `solo.go`: the game is over when no snake has
`EliminatedCause == NotEliminated`.  The board is returned unchanged (the Go
function never writes through its pointer argument). -/
def GameOverSolo (b : BoardState) (_settings : Settings) (_moves : List SnakeMove) :
    Except String (Bool × BoardState) :=
  .ok (b.Snakes.all (fun s => !(s.EliminatedCause == NotEliminated)), b)

/-- `GameOverSquad` from the squad file: collect the snakes remaining
(`EliminatedCause == NotEliminated`) and report game over when each of them
is on the same squad as the first remaining snake (vacuously true when none
remain). -/
def GameOverSquad (b : BoardState) (settings : Settings) (_moves : List SnakeMove) :
    Except String (Bool × BoardState) :=
  let snakesRemaining := b.Snakes.filter (fun s => s.EliminatedCause == NotEliminated)
  match snakesRemaining with
  | [] => .ok (true, b)
  | first :: _ =>
    .ok (snakesRemaining.all
      (fun s => areSnakesOnSameSquad settings.squadSettings.squadMap s first), b)

/-- The per-snake body of the loop in `ResurrectSnakesSquad`: a snake
eliminated by collision with an unset culprit is a consistency fault; one
whose culprit is a different snake on the same squad is resurrected. -/
def resurrectSnakeSquad (squadMap : List (String × String)) (s : Snake) : Except String Snake :=
  if s.EliminatedCause == EliminatedByCollision then
    if s.EliminatedBy == "" then
      .error "snake eliminated by collision and eliminatedby is not set"
    else if s.id != s.EliminatedBy && areSnakeIDsOnSameSquad squadMap s.id s.EliminatedBy then
      .ok { s with EliminatedCause := NotEliminated, EliminatedBy := "" }
    else
      .ok s
  else
    .ok s

/-- The `for` loop of `ResurrectSnakesSquad` over the snake array: each snake
is rewritten in place, and an error aborts the loop. -/
def resurrectSnakes (squadMap : List (String × String)) : List Snake → Except String (List Snake)
  | [] => .ok []
  | s :: rest =>
    match resurrectSnakeSquad squadMap s with
    | .error e => .error e
    | .ok s' =>
      match resurrectSnakes squadMap rest with
      | .error e => .error e
      | .ok rest' => .ok (s' :: rest')

/-- `ResurrectSnakesSquad` from the squad file. -/
def ResurrectSnakesSquad (b : BoardState) (settings : Settings) (moves : List SnakeMove) :
    Except String (Bool × BoardState) :=
  if IsInitialisation b settings moves then .ok (false, b)
  else if !settings.squadSettings.AllowBodyCollisions then .ok (false, b)
  else
    match resurrectSnakes settings.squadSettings.squadMap b.Snakes with
    | .error e => .error e
    | .ok snakes => .ok (false, { b with Snakes := snakes })

/-- The Solo ruleset (Go `SoloRuleset`): it carries the standard settings of
its embedded `StandardRuleset`. -/
structure SoloRuleset where
  standardSettings : Settings
deriving Repr

/-- `SoloRuleset.IsGameOver`: dispatch to `GameOverSolo` with an empty move
list (Go `callStageFunc`). -/
def SoloRuleset.IsGameOver (r : SoloRuleset) (b : BoardState) : Except String (Bool × BoardState) :=
  GameOverSolo b r.standardSettings []

/-- The Squad ruleset (Go `SquadRuleset`): the embedded standard ruleset's
settings plus the squad configuration fields. -/
structure SquadRuleset where
  standardSettings : Settings
  SquadMap : List (String × String)
  AllowBodyCollisions : Bool
  SharedElimination : Bool
  SharedHealth : Bool
  SharedLength : Bool
deriving Repr

/-- `SquadRuleset.Settings`: start from the standard settings and install the
squad sub-settings from the ruleset's fields. -/
def SquadRuleset.Settings (r : SquadRuleset) : Settings :=
  { r.standardSettings with
    squadSettings :=
      { squadMap := r.SquadMap
        AllowBodyCollisions := r.AllowBodyCollisions
        SharedElimination := r.SharedElimination
        SharedHealth := r.SharedHealth
        SharedLength := r.SharedLength } }

/-- `SquadRuleset.IsGameOver`: dispatch to `GameOverSquad` with an empty move
list (Go `callStageFunc`). -/
def SquadRuleset.IsGameOver (r : SquadRuleset) (b : BoardState) :
    Except String (Bool × BoardState) :=
  GameOverSquad b r.Settings []

/-! ## Concrete fixtures used by example/witness theorems -/

/-- A living snake on squad "red". -/
def exSnakeA : Snake :=
  { id := "a", Body := [⟨0, 0⟩], Health := 50, EliminatedCause := NotEliminated,
    EliminatedBy := "", EliminatedOnTurn := -1 }

/-- An eliminated snake on squad "blue". -/
def exSnakeB : Snake :=
  { id := "b", Body := [⟨3, 3⟩], Health := 0, EliminatedCause := EliminatedByOutOfHealth,
    EliminatedBy := "", EliminatedOnTurn := 2 }

/-- A living snake on squad "red". -/
def exSnakeC : Snake :=
  { id := "c", Body := [⟨5, 5⟩], Health := 80, EliminatedCause := NotEliminated,
    EliminatedBy := "", EliminatedOnTurn := -1 }

/-- A squad map: "a" and "c" on squad "red", "b" on squad "blue". -/
def exSquadMap : List (String × String) := [("a", "red"), ("c", "red"), ("b", "blue")]

/-- Board builder for the fixtures. -/
def exBoard (snakes : List Snake) : BoardState :=
  { Width := 11, Height := 11, Turn := 3, Food := [], Hazards := [], Snakes := snakes }

/-- Settings builder for the fixtures. -/
def exSettings (sq : SquadSettings) : Settings :=
  { FoodSpawnChance := 15, MinimumFood := 1, HazardDamagePerTurn := 14, squadSettings := sq }

/-- Squad settings builder over the fixture squad map. -/
def exSquadSettings (collisions elim health len : Bool) : SquadSettings :=
  { squadMap := exSquadMap, AllowBodyCollisions := collisions, SharedElimination := elim,
    SharedHealth := health, SharedLength := len }

/-- A non-empty move list (any non-initialization turn). -/
def exMoves : List SnakeMove := [⟨"a", "up"⟩]

/-! ## C1, C2, C10: the game-over stages -/

/-- C1: for every board state, `GameOverSquad` (and `SquadRuleset.IsGameOver`,
which dispatches to it) returns no error, and reports game over exactly when
the list of snakes with `EliminatedCause = NotEliminated` is empty or every
snake in it shares a squad id with the first snake in it. -/
theorem gameOverSquad_correct (b : BoardState) (settings : Settings) (moves : List SnakeMove) :
    ∃ r : Bool, GameOverSquad b settings moves = .ok (r, b) ∧
      (∀ rs : SquadRuleset, rs.Settings = settings → rs.IsGameOver b = .ok (r, b)) ∧
      (r = true ↔
        (b.Snakes.filter (fun s => s.EliminatedCause == NotEliminated) = [] ∨
          ∃ f, (b.Snakes.filter (fun s => s.EliminatedCause == NotEliminated)).head? = some f ∧
            ∀ s ∈ b.Snakes.filter (fun s => s.EliminatedCause == NotEliminated),
              mapGet settings.squadSettings.squadMap s.id =
                mapGet settings.squadSettings.squadMap f.id)) := by
  cases hL : b.Snakes.filter (fun s => s.EliminatedCause == NotEliminated) with
  | nil =>
    refine ⟨true, ?_, ?_, ?_⟩
    · unfold GameOverSquad
      simp only [hL]
    · intro rs hrs
      unfold SquadRuleset.IsGameOver GameOverSquad
      rw [hrs]
      simp only [hL]
    · simp [hL]
  | cons f t =>
    refine ⟨(f :: t).all
        (fun s => areSnakesOnSameSquad settings.squadSettings.squadMap s f), ?_, ?_, ?_⟩
    · unfold GameOverSquad
      simp only [hL]
    · intro rs hrs
      unfold SquadRuleset.IsGameOver GameOverSquad
      rw [hrs]
      simp only [hL]
    · simp [List.all_eq_true, areSnakesOnSameSquad, areSnakeIDsOnSameSquad]

/-- C1 witness: on the fixture board with squads red (alive) and blue
(eliminated), game over is reported. -/
theorem gameOverSquad_correct_witness :
    GameOverSquad (exBoard [exSnakeA, exSnakeB, exSnakeC])
        (exSettings (exSquadSettings true false false false)) [] =
      .ok (true, exBoard [exSnakeA, exSnakeB, exSnakeC]) := by
  obtain ⟨r, hr, -, hiff⟩ := gameOverSquad_correct (exBoard [exSnakeA, exSnakeB, exSnakeC])
    (exSettings (exSquadSettings true false false false)) []
  have : r = true := hiff.mpr (by decide)
  rw [this] at hr
  exact hr

/-- C2: for every board state, `GameOverSolo` (and `SoloRuleset.IsGameOver`,
which dispatches to it) returns no error, and reports game over exactly when
every snake has `EliminatedCause ≠ NotEliminated`; in particular it holds on
an empty roster and fails when some snake is alive. -/
theorem gameOverSolo_correct (b : BoardState) (settings : Settings) (moves : List SnakeMove) :
    ∃ r : Bool, GameOverSolo b settings moves = .ok (r, b) ∧
      (∀ rs : SoloRuleset, rs.IsGameOver b = .ok (r, b)) ∧
      (r = true ↔ ∀ s ∈ b.Snakes, s.EliminatedCause ≠ NotEliminated) := by
  refine ⟨b.Snakes.all (fun s => !(s.EliminatedCause == NotEliminated)), rfl,
    fun rs => rfl, ?_⟩
  simp [List.all_eq_true]

/-- C2 witness: with a single living snake the solo game is not over; once
that snake is out of health, it is. -/
theorem gameOverSolo_correct_witness :
    GameOverSolo (exBoard [exSnakeA]) (exSettings (exSquadSettings false false false false)) [] =
      .ok (false, exBoard [exSnakeA]) ∧
    GameOverSolo (exBoard [exSnakeB]) (exSettings (exSquadSettings false false false false)) [] =
      .ok (true, exBoard [exSnakeB]) := by
  constructor
  · obtain ⟨r, hr, -, hiff⟩ := gameOverSolo_correct (exBoard [exSnakeA])
      (exSettings (exSquadSettings false false false false)) []
    have : r = false := by
      cases hrv : r
      · rfl
      · exact absurd (hiff.mp hrv exSnakeA (by decide)) (by decide)
    rw [this] at hr; exact hr
  · obtain ⟨r, hr, -, hiff⟩ := gameOverSolo_correct (exBoard [exSnakeB])
      (exSettings (exSquadSettings false false false false)) []
    have : r = true := hiff.mpr (by decide)
    rw [this] at hr; exact hr

/-- C10: the game-over checks of the Solo and Squad rulesets are read-only:
on every board state they return a boolean with no error and leave the board
exactly as it was. -/
theorem gameOver_readonly (b : BoardState) (settings : Settings) (moves : List SnakeMove) :
    (∃ r : Bool, GameOverSolo b settings moves = .ok (r, b)) ∧
    (∃ r : Bool, GameOverSquad b settings moves = .ok (r, b)) := by
  constructor
  · exact ⟨_, rfl⟩
  · unfold GameOverSquad
    cases hL : b.Snakes.filter (fun s => s.EliminatedCause == NotEliminated) with
    | nil => exact ⟨true, rfl⟩
    | cons f t => exact ⟨_, rfl⟩

/-! ## C7: the sharing stage is a no-op on initialization / with no flags -/

/-- C7: on the initialization turn (empty move list) `ShareAttributesSquad`
returns `(false, nil)` and leaves the board untouched, whatever the sharing
flags; the same holds on any turn when none of `SharedHealth`,
`SharedLength`, `SharedElimination` is enabled. -/
theorem shareAttributesSquad_noop (b : BoardState) (settings : Settings)
    (moves : List SnakeMove) :
    (IsInitialisation b settings moves = true →
      ShareAttributesSquad b settings moves = .ok (false, b)) ∧
    (settings.squadSettings.SharedHealth = false →
      settings.squadSettings.SharedLength = false →
      settings.squadSettings.SharedElimination = false →
      ShareAttributesSquad b settings moves = .ok (false, b)) := by
  constructor
  · intro h
    simp [ShareAttributesSquad, h]
  · intro h1 h2 h3
    unfold ShareAttributesSquad
    by_cases hi : IsInitialisation b settings moves <;> simp [hi, h1, h2, h3]

/-- C7 witness: with every sharing flag enabled but an empty move list, the
sharing stage returns the fixture board unchanged. -/
theorem shareAttributesSquad_noop_witness :
    ShareAttributesSquad (exBoard [exSnakeA, exSnakeB, exSnakeC])
        (exSettings (exSquadSettings true true true true)) [] =
      .ok (false, exBoard [exSnakeA, exSnakeB, exSnakeC]) :=
  (shareAttributesSquad_noop (exBoard [exSnakeA, exSnakeB, exSnakeC])
    (exSettings (exSquadSettings true true true true)) []).1 rfl

/-! ## C3: the squad collision-resurrection stage -/

/-- The condition under which `ResurrectSnakesSquad` actually resurrects a
snake: eliminated by body collision, with a culprit that is set, is a
*different* snake, and is on the victim's squad. -/
abbrev squadResurrects (m : List (String × String)) (s : Snake) : Prop :=
  s.EliminatedCause = EliminatedByCollision ∧ s.EliminatedBy ≠ "" ∧
    s.id ≠ s.EliminatedBy ∧ areSnakeIDsOnSameSquad m s.id s.EliminatedBy = true

/-- A collision-eliminated snake with an unset culprit makes the resurrection
loop fail. -/
theorem resurrectSnakes_error_of_mem (m : List (String × String)) (l : List Snake) (s : Snake)
    (hs : s ∈ l) (h1 : s.EliminatedCause = EliminatedByCollision) (h2 : s.EliminatedBy = "") :
    ∃ e, resurrectSnakes m l = .error e := by
  induction l with
  | nil => cases hs
  | cons a rest ih =>
    rcases List.mem_cons.mp hs with rfl | hmem
    · refine ⟨"snake eliminated by collision and eliminatedby is not set", ?_⟩
      unfold resurrectSnakes resurrectSnakeSquad
      simp [h1, h2]
    · unfold resurrectSnakes
      cases ha : resurrectSnakeSquad m a with
      | error e => exact ⟨e, by simp [ha]⟩
      | ok a' =>
        obtain ⟨e, he⟩ := ih hmem
        exact ⟨e, by simp [ha, he]⟩

/-- What a successful `resurrectSnakeSquad` does to one snake. -/
theorem resurrectSnakeSquad_ok (m : List (String × String)) (s s' : Snake)
    (h : resurrectSnakeSquad m s = .ok s') :
    (squadResurrects m s → s' = { s with EliminatedCause := NotEliminated, EliminatedBy := "" }) ∧
      (¬ squadResurrects m s → s' = s) := by
  unfold resurrectSnakeSquad at h
  by_cases hc : s.EliminatedCause = EliminatedByCollision
  · by_cases hb : s.EliminatedBy = ""
    · simp [hc, hb] at h
    · by_cases hg : (s.id != s.EliminatedBy &&
          areSnakeIDsOnSameSquad m s.id s.EliminatedBy) = true
      · simp only [hc, beq_self_eq_true, if_true, beq_iff_eq, hb, if_false, hg,
          Except.ok.injEq] at h
        have hgid : s.id ≠ s.EliminatedBy := by
          have := (Bool.and_eq_true _ _).mp hg
          exact bne_iff_ne.mp this.1
        have hgsq : areSnakeIDsOnSameSquad m s.id s.EliminatedBy = true :=
          ((Bool.and_eq_true _ _).mp hg).2
        exact ⟨fun _ => h.symm, fun hn => absurd ⟨hc, hb, hgid, hgsq⟩ hn⟩
      · have hgf : (s.id != s.EliminatedBy &&
            areSnakeIDsOnSameSquad m s.id s.EliminatedBy) = false :=
          Bool.eq_false_iff.mpr hg
        simp only [hc, beq_self_eq_true, if_true, beq_iff_eq, hb, if_false, hgf,
          Bool.false_eq_true, Except.ok.injEq] at h
        refine ⟨fun hres => ?_, fun _ => h.symm⟩
        exact absurd ((Bool.and_eq_true _ _).mpr ⟨bne_iff_ne.mpr hres.2.2.1, hres.2.2.2⟩) hg
  · have hcf : (s.EliminatedCause == EliminatedByCollision) = false := by
      simp [hc]
    simp only [hcf, Bool.false_eq_true, if_false, Except.ok.injEq] at h
    exact ⟨fun hres => absurd hres.1 hc, fun _ => h.symm⟩

/-- A successful resurrection loop rewrites each snake independently
according to `squadResurrects`. -/
theorem resurrectSnakes_ok_forall2 (m : List (String × String)) (l l' : List Snake)
    (h : resurrectSnakes m l = .ok l') :
    List.Forall₂ (fun s s' =>
      (squadResurrects m s →
        s' = { s with EliminatedCause := NotEliminated, EliminatedBy := "" }) ∧
      (¬ squadResurrects m s → s' = s)) l l' := by
  induction l generalizing l' with
  | nil =>
    unfold resurrectSnakes at h
    cases h
    exact List.Forall₂.nil
  | cons a rest ih =>
    unfold resurrectSnakes at h
    cases ha : resurrectSnakeSquad m a with
    | error e => rw [ha] at h; cases h
    | ok a' =>
      rw [ha] at h
      cases hrest : resurrectSnakes m rest with
      | error e => rw [hrest] at h; cases h
      | ok rest' =>
        rw [hrest] at h
        cases h
        exact List.Forall₂.cons (resurrectSnakeSquad_ok m a a' ha) (ih rest' hrest)

/-- C3 counterexample board: a snake eliminated by collision whose recorded
culprit is its own id.  The culprit id is set and (trivially) maps to the
victim's own squad, so the claim as stated demands a resurrection; the code
additionally requires the culprit to be a different snake and leaves the
victim eliminated. -/
def cexResurrectBoard : BoardState :=
  exBoard [{ exSnakeA with EliminatedCause := EliminatedByCollision, EliminatedBy := "a" }]

/-- C3 settings: body collisions allowed. -/
def cexResurrectSettings : Settings := exSettings (exSquadSettings true false false false)

/-- C3 counterexample: on a non-initialization turn with
`AllowBodyCollisions` enabled, a collision victim whose non-empty
`EliminatedBy` is on the same squad is *not* resurrected when the culprit is
the snake itself — the stage returns the board unchanged, with the victim
still eliminated, refuting the claim as stated. -/
theorem resurrectSnakesSquad_claim_counterexample :
    IsInitialisation cexResurrectBoard cexResurrectSettings exMoves = false ∧
    cexResurrectSettings.squadSettings.AllowBodyCollisions = true ∧
    (∀ s ∈ cexResurrectBoard.Snakes,
      s.EliminatedCause = EliminatedByCollision ∧ s.EliminatedBy ≠ "" ∧
      areSnakeIDsOnSameSquad cexResurrectSettings.squadSettings.squadMap
        s.id s.EliminatedBy = true) ∧
    ResurrectSnakesSquad cexResurrectBoard cexResurrectSettings exMoves =
      .ok (false, cexResurrectBoard) ∧
    ¬ (∀ s ∈ cexResurrectBoard.Snakes, s.EliminatedCause = NotEliminated) := by
  refine ⟨rfl, rfl, by decide, ?_, by decide⟩
  rfl

/-- C3 (amended): on a non-initialization turn, if `AllowBodyCollisions` is
disabled the stage changes nothing; if it is enabled then a snake eliminated
by collision with an empty `EliminatedBy` makes the stage fail, and on
success each snake eliminated by collision whose culprit is set, is a
*different* snake, and shares the victim's squad is resurrected
(`EliminatedCause` reset, `EliminatedBy` cleared) while every other snake —
and every other board field — is left unchanged. -/
theorem resurrectSnakesSquad_correct (b : BoardState) (settings : Settings)
    (moves : List SnakeMove) (hinit : IsInitialisation b settings moves = false) :
    (settings.squadSettings.AllowBodyCollisions = false →
      ResurrectSnakesSquad b settings moves = .ok (false, b)) ∧
    (settings.squadSettings.AllowBodyCollisions = true →
      ((∃ s ∈ b.Snakes, s.EliminatedCause = EliminatedByCollision ∧ s.EliminatedBy = "") →
        ∃ e, ResurrectSnakesSquad b settings moves = .error e) ∧
      (∀ r b', ResurrectSnakesSquad b settings moves = .ok (r, b') →
        r = false ∧ b'.Width = b.Width ∧ b'.Height = b.Height ∧ b'.Turn = b.Turn ∧
        b'.Food = b.Food ∧ b'.Hazards = b.Hazards ∧
        List.Forall₂ (fun s s' =>
          (squadResurrects settings.squadSettings.squadMap s →
            s' = { s with EliminatedCause := NotEliminated, EliminatedBy := "" }) ∧
          (¬ squadResurrects settings.squadSettings.squadMap s → s' = s))
          b.Snakes b'.Snakes)) := by
  refine ⟨fun hoff => ?_, fun hon => ⟨fun ⟨s, hs, h1, h2⟩ => ?_, fun r b' hok => ?_⟩⟩
  · unfold ResurrectSnakesSquad
    simp [hinit, hoff]
  · obtain ⟨e, he⟩ :=
      resurrectSnakes_error_of_mem settings.squadSettings.squadMap b.Snakes s hs h1 h2
    refine ⟨e, ?_⟩
    unfold ResurrectSnakesSquad
    simp [hinit, hon, he]
  · unfold ResurrectSnakesSquad at hok
    rw [hinit] at hok
    simp only [Bool.false_eq_true, if_false, hon, Bool.not_true] at hok
    cases hres : resurrectSnakes settings.squadSettings.squadMap b.Snakes with
    | error e => rw [hres] at hok; cases hok
    | ok snakes =>
      rw [hres] at hok
      cases hok
      exact ⟨rfl, rfl, rfl, rfl, rfl, rfl,
        resurrectSnakes_ok_forall2 settings.squadSettings.squadMap b.Snakes snakes hres⟩

/-- C3 witness: fixture with a collision victim "a" eliminated by its living
squad-mate "c" (both on squad "red"). -/
theorem resurrectSnakesSquad_correct_witness :
    (let b := exBoard
        [{ exSnakeA with EliminatedCause := EliminatedByCollision, EliminatedBy := "c" },
          exSnakeC]
     let settings := exSettings (exSquadSettings true false false false)
     (settings.squadSettings.AllowBodyCollisions = false →
        ResurrectSnakesSquad b settings exMoves = .ok (false, b)) ∧
      (settings.squadSettings.AllowBodyCollisions = true →
        ((∃ s ∈ b.Snakes,
            s.EliminatedCause = EliminatedByCollision ∧ s.EliminatedBy = "") →
          ∃ e, ResurrectSnakesSquad b settings exMoves = .error e) ∧
        (∀ r b', ResurrectSnakesSquad b settings exMoves = .ok (r, b') →
          r = false ∧ b'.Width = b.Width ∧ b'.Height = b.Height ∧ b'.Turn = b.Turn ∧
          b'.Food = b.Food ∧ b'.Hazards = b.Hazards ∧
          List.Forall₂ (fun s s' =>
            (squadResurrects settings.squadSettings.squadMap s →
              s' = { s with EliminatedCause := NotEliminated, EliminatedBy := "" }) ∧
            (¬ squadResurrects settings.squadSettings.squadMap s → s' = s))
            b.Snakes b'.Snakes))) :=
  resurrectSnakesSquad_correct
    (exBoard [{ exSnakeA with EliminatedCause := EliminatedByCollision, EliminatedBy := "c" },
      exSnakeC])
    (exSettings (exSquadSettings true false false false)) exMoves rfl

/-! ## The sharing stage: squad-relation helpers -/

/-- Squad sameness is reflexive. -/
theorem areSnakeIDs_refl (m : List (String × String)) (x : String) :
    areSnakeIDsOnSameSquad m x x = true := by
  simp [areSnakeIDsOnSameSquad]

/-- Squad sameness is symmetric. -/
theorem areSnakeIDs_symm (m : List (String × String)) (x y : String)
    (h : areSnakeIDsOnSameSquad m x y = true) : areSnakeIDsOnSameSquad m y x = true := by
  simp only [areSnakeIDsOnSameSquad, beq_iff_eq] at *
  exact h.symm

/-- Squad sameness is transitive. -/
theorem areSnakeIDs_trans (m : List (String × String)) (x y z : String)
    (h1 : areSnakeIDsOnSameSquad m x y = true) (h2 : areSnakeIDsOnSameSquad m y z = true) :
    areSnakeIDsOnSameSquad m x z = true := by
  simp only [areSnakeIDsOnSameSquad, beq_iff_eq] at *
  exact h1.trans h2

/-! ## C4: health sharing -/

/-- With only `SharedHealth` enabled, one inner-loop iteration raises the
snake's health to the other's when they are on the same squad. -/
theorem shareWithOther_health_eq (ss : SquadSettings) (hh : ss.SharedHealth = true)
    (hl : ss.SharedLength = false) (he : ss.SharedElimination = false) (s other : Snake) :
    shareWithOther ss s other =
      .ok (if areSnakesOnSameSquad ss.squadMap s other ∧ s.Health < other.Health
        then { s with Health := other.Health } else s) := by
  unfold shareWithOther
  by_cases hsq : areSnakesOnSameSquad ss.squadMap s other
  · by_cases hlt : s.Health < other.Health
    · simp [hsq, hh, hl, he, hlt]
    · simp [hsq, hh, hl, he, hlt]
  · simp [hsq]


/-- With only `SharedHealth` enabled, the inner loop never fails, changes
nothing but the health, never lowers it, ends at least as high as every
same-squad snake scanned at an index `≥ j` other than `i`, and ends at a
value that was already present (its own start or a scanned snake's). -/
theorem shareInner_health (ss : SquadSettings) (hh : ss.SharedHealth = true)
    (hl : ss.SharedLength = false) (he : ss.SharedElimination = false)
    (snakes : List Snake) (i : Nat) :
    ∀ (j : Nat) (s : Snake),
      ∃ s', shareInner ss snakes i j s = .ok s' ∧
        s'.id = s.id ∧ s'.Body = s.Body ∧ s'.EliminatedCause = s.EliminatedCause ∧
        s'.EliminatedBy = s.EliminatedBy ∧ s'.EliminatedOnTurn = s.EliminatedOnTurn ∧
        s.Health ≤ s'.Health ∧
        (∀ k sk, j ≤ k → k ≠ i → snakes[k]? = some sk →
          areSnakeIDsOnSameSquad ss.squadMap s.id sk.id = true → sk.Health ≤ s'.Health) ∧
        (s'.Health = s.Health ∨ ∃ k sk, j ≤ k ∧ k ≠ i ∧ snakes[k]? = some sk ∧
          areSnakeIDsOnSameSquad ss.squadMap s.id sk.id = true ∧ s'.Health = sk.Health) := by
  have exitCase : ∀ (j : Nat) (s : Snake), ¬ j < snakes.length →
      ∃ s', shareInner ss snakes i j s = .ok s' ∧
        s'.id = s.id ∧ s'.Body = s.Body ∧ s'.EliminatedCause = s.EliminatedCause ∧
        s'.EliminatedBy = s.EliminatedBy ∧ s'.EliminatedOnTurn = s.EliminatedOnTurn ∧
        s.Health ≤ s'.Health ∧
        (∀ k sk, j ≤ k → k ≠ i → snakes[k]? = some sk →
          areSnakeIDsOnSameSquad ss.squadMap s.id sk.id = true → sk.Health ≤ s'.Health) ∧
        (s'.Health = s.Health ∨ ∃ k sk, j ≤ k ∧ k ≠ i ∧ snakes[k]? = some sk ∧
          areSnakeIDsOnSameSquad ss.squadMap s.id sk.id = true ∧ s'.Health = sk.Health) := by
    intro j s h
    refine ⟨s, by rw [shareInner, dif_neg h], rfl, rfl, rfl, rfl, rfl, le_refl _, ?_,
      Or.inl rfl⟩
    intro k sk hjk _ hsome _
    exfalso
    have hk : k < snakes.length := by
      by_contra hcon
      rw [List.getElem?_eq_none (le_of_not_lt hcon)] at hsome
      cases hsome
    exact h (lt_of_le_of_lt hjk hk)
  suffices main : ∀ (d j : Nat) (s : Snake), snakes.length ≤ j + d →
      ∃ s', shareInner ss snakes i j s = .ok s' ∧
        s'.id = s.id ∧ s'.Body = s.Body ∧ s'.EliminatedCause = s.EliminatedCause ∧
        s'.EliminatedBy = s.EliminatedBy ∧ s'.EliminatedOnTurn = s.EliminatedOnTurn ∧
        s.Health ≤ s'.Health ∧
        (∀ k sk, j ≤ k → k ≠ i → snakes[k]? = some sk →
          areSnakeIDsOnSameSquad ss.squadMap s.id sk.id = true → sk.Health ≤ s'.Health) ∧
        (s'.Health = s.Health ∨ ∃ k sk, j ≤ k ∧ k ≠ i ∧ snakes[k]? = some sk ∧
          areSnakeIDsOnSameSquad ss.squadMap s.id sk.id = true ∧ s'.Health = sk.Health) by
    intro j s
    exact main snakes.length j s (by omega)
  intro d
  induction d with
  | zero =>
    intro j s hle
    exact exitCase j s (by omega)
  | succ d ih =>
    intro j s hle
    by_cases h : j < snakes.length
    · have hget : snakes[j]? = some (snakes.get ⟨j, h⟩) := by
        rw [List.getElem?_eq_getElem h]
        simp
      by_cases hji : j = i
      · have hshare : shareWithOther ss s (if j = i then s else snakes.get ⟨j, h⟩) = .ok s := by
          rw [shareWithOther_health_eq ss hh hl he]
          simp only [if_pos hji]
          rw [if_neg (fun hc => lt_irrefl _ hc.2)]
        obtain ⟨s', hs', hid, hbody, hcause, hby, hturn, hmono, hub, hatt⟩ :=
          ih (j + 1) s (by omega)
        have hstep : shareInner ss snakes i j s = shareInner ss snakes i (j + 1) s := by
          rw [shareInner, dif_pos h, hshare]
        refine ⟨s', by rw [hstep]; exact hs', hid, hbody, hcause, hby, hturn, hmono, ?_, ?_⟩
        · intro k sk hjk hki hsome hsq
          have hjk' : j + 1 ≤ k := by omega
          exact hub k sk hjk' hki hsome hsq
        · rcases hatt with heq | ⟨k, sk, hk1, hk2, hk3, hk4, hk5⟩
          · exact Or.inl heq
          · exact Or.inr ⟨k, sk, by omega, hk2, hk3, hk4, hk5⟩
      · have hoth : (if j = i then s else snakes.get ⟨j, h⟩) = snakes.get ⟨j, h⟩ :=
          if_neg hji
        by_cases hcond : areSnakesOnSameSquad ss.squadMap s (snakes.get ⟨j, h⟩) = true ∧
            s.Health < (snakes.get ⟨j, h⟩).Health
        · have hshare : shareWithOther ss s (if j = i then s else snakes.get ⟨j, h⟩) =
              .ok { s with Health := (snakes.get ⟨j, h⟩).Health } := by
            rw [hoth, shareWithOther_health_eq ss hh hl he, if_pos hcond]
          obtain ⟨s', hs', hid, hbody, hcause, hby, hturn, hmono, hub, hatt⟩ :=
            ih (j + 1) { s with Health := (snakes.get ⟨j, h⟩).Health } (by omega)
          have hstep : shareInner ss snakes i j s =
              shareInner ss snakes i (j + 1) { s with Health := (snakes.get ⟨j, h⟩).Health } := by
            rw [shareInner, dif_pos h, hshare]
          refine ⟨s', by rw [hstep]; exact hs', hid, hbody, hcause, hby, hturn, ?_, ?_, ?_⟩
          · exact le_trans (le_of_lt hcond.2) hmono
          · intro k sk hjk hki hsome hsq
            rcases Nat.eq_or_lt_of_le hjk with rfl | hlt
            · have hsk : sk = snakes.get ⟨j, h⟩ := by
                rw [hget] at hsome
                exact (Option.some.inj hsome).symm
              rw [hsk]
              exact hmono
            · exact hub k sk hlt hki hsome hsq
          · rcases hatt with heq | ⟨k, sk, hk1, hk2, hk3, hk4, hk5⟩
            · exact Or.inr ⟨j, snakes.get ⟨j, h⟩, le_refl j, hji, hget, hcond.1, heq⟩
            · exact Or.inr ⟨k, sk, by omega, hk2, hk3, hk4, hk5⟩
        · have hshare : shareWithOther ss s (if j = i then s else snakes.get ⟨j, h⟩) =
              .ok s := by
            rw [hoth, shareWithOther_health_eq ss hh hl he, if_neg hcond]
          obtain ⟨s', hs', hid, hbody, hcause, hby, hturn, hmono, hub, hatt⟩ :=
            ih (j + 1) s (by omega)
          have hstep : shareInner ss snakes i j s = shareInner ss snakes i (j + 1) s := by
            rw [shareInner, dif_pos h, hshare]
          refine ⟨s', by rw [hstep]; exact hs', hid, hbody, hcause, hby, hturn, hmono, ?_, ?_⟩
          · intro k sk hjk hki hsome hsq
            rcases Nat.eq_or_lt_of_le hjk with rfl | hlt
            · have hsk : sk = snakes.get ⟨j, h⟩ := by
                rw [hget] at hsome
                exact (Option.some.inj hsome).symm
              have hnlt : ¬ s.Health < sk.Health := by
                intro hcon
                apply hcond
                refine ⟨?_, by rw [← hsk]; exact hcon⟩
                rw [← hsk]
                exact hsq
              exact le_trans (le_of_not_lt hnlt) hmono
            · exact hub k sk hlt hki hsome hsq
          · rcases hatt with heq | ⟨k, sk, hk1, hk2, hk3, hk4, hk5⟩
            · exact Or.inl heq
            · exact Or.inr ⟨k, sk, by omega, hk2, hk3, hk4, hk5⟩
    · exact exitCase j s h

/-- With only `SharedHealth` enabled, the outer loop never fails; snakes
below the loop index are untouched, eliminated snakes are skipped, and every
living snake ends with the greatest health found among its squad (an upper
bound of all same-squad healths at loop entry, itself attained by one of
them), with every other field unchanged and no health ever lowered. -/
theorem shareOuter_health (ss : SquadSettings) (hh : ss.SharedHealth = true)
    (hl : ss.SharedLength = false) (he : ss.SharedElimination = false) :
    ∀ (d : Nat) (snakes : List Snake) (i : Nat), snakes.length ≤ i + d →
      ∃ out, shareOuter ss snakes i = .ok out ∧
        out.length = snakes.length ∧
        (∀ k, k < i → out[k]? = snakes[k]?) ∧
        (∀ k s0, i ≤ k → snakes[k]? = some s0 →
          ∃ s1, out[k]? = some s1 ∧
            s1.id = s0.id ∧ s1.Body = s0.Body ∧ s1.EliminatedCause = s0.EliminatedCause ∧
            s1.EliminatedBy = s0.EliminatedBy ∧ s1.EliminatedOnTurn = s0.EliminatedOnTurn ∧
            s0.Health ≤ s1.Health ∧
            (s0.EliminatedCause ≠ NotEliminated → s1 = s0) ∧
            (s0.EliminatedCause = NotEliminated →
              (∀ (m : Nat) (sm : Snake), snakes[m]? = some sm →
                areSnakeIDsOnSameSquad ss.squadMap s0.id sm.id = true →
                sm.Health ≤ s1.Health) ∧
              (∃ (m : Nat) (sm : Snake), snakes[m]? = some sm ∧
                areSnakeIDsOnSameSquad ss.squadMap s0.id sm.id = true ∧
                s1.Health = sm.Health))) := by
  intro d
  induction d with
  | zero =>
    intro snakes i hle
    refine ⟨snakes, by rw [shareOuter, dif_neg (by omega)], rfl, fun k _ => rfl, ?_⟩
    intro k s0 hik hsome
    exfalso
    have : k < snakes.length := (List.getElem?_eq_some.mp hsome).1
    omega
  | succ d ih =>
    intro snakes i hle
    by_cases h : i < snakes.length
    · have hgeti : snakes[i]? = some (snakes.get ⟨i, h⟩) := by
        rw [List.getElem?_eq_getElem h]
        simp
      by_cases hcase : (snakes.get ⟨i, h⟩).EliminatedCause = NotEliminated
      · -- living snake: run the inner loop and write back
        have hcaseb : ((snakes.get ⟨i, h⟩).EliminatedCause == NotEliminated) = true :=
          beq_iff_eq.mpr hcase
        obtain ⟨s', hs', hid, hbody, hcause, hby, hturn, hmono, hub, hatt⟩ :=
          shareInner_health ss hh hl he snakes i 0 (snakes.get ⟨i, h⟩)
        have hstep : shareOuter ss snakes i = shareOuter ss (snakes.set i s') (i + 1) := by
          rw [shareOuter, dif_pos h]
          simp only [hcaseb, Bool.not_true, Bool.false_eq_true, if_false, hs']
        obtain ⟨out, hout, hlen, hpre, hpt⟩ := ih (snakes.set i s') (i + 1)
          (by rw [List.length_set]; omega)
        refine ⟨out, hstep ▸ hout, by rw [hlen, List.length_set], ?_, ?_⟩
        · intro k hk
          rw [hpre k (by omega), List.getElem?_set_ne (by omega)]
        · intro k s0 hik hsome
          rcases Nat.eq_or_lt_of_le hik with rfl | hklt
          · -- k = i: the snake processed at this step
            have hs0 : s0 = snakes.get ⟨i, h⟩ := by
              rw [hgeti] at hsome
              exact (Option.some.inj hsome).symm
            have houti : out[i]? = some s' := by
              rw [hpre i (by omega), List.getElem?_set_eq h]
            subst hs0
            refine ⟨s', houti, hid, hbody, hcause, hby, hturn, hmono, ?_, ?_⟩
            · intro hne
              exact absurd hcase hne
            · intro _
              constructor
              · intro m sm hm hsq
                by_cases hmi : m = i
                · subst hmi
                  rw [hgeti] at hm
                  rw [← Option.some.inj hm]
                  exact hmono
                · exact hub m sm (Nat.zero_le m) hmi hm hsq
              · rcases hatt with heq | ⟨k2, sk2, _, hk2i, hk2some, hk2sq, hk2eq⟩
                · exact ⟨i, snakes.get ⟨i, h⟩, hgeti,
                    areSnakeIDs_refl ss.squadMap _, heq⟩
                · exact ⟨k2, sk2, hk2some, hk2sq, hk2eq⟩
          · -- k > i: covered by the recursive call
            have hsome' : (snakes.set i s')[k]? = some s0 := by
              rw [List.getElem?_set_ne (by omega)]
              exact hsome
            obtain ⟨s1, hs1out, h1id, h1body, h1cause, h1by, h1turn, h1mono, h1elim, h1live⟩ :=
              hpt k s0 (by omega) hsome'
            refine ⟨s1, hs1out, h1id, h1body, h1cause, h1by, h1turn, h1mono, h1elim, ?_⟩
            intro hlive
            obtain ⟨hub', hatt'⟩ := h1live hlive
            constructor
            · intro m sm hm hsq
              by_cases hmi : m = i
              · have hm' : sm = snakes.get ⟨i, h⟩ := by
                  rw [hmi, hgeti] at hm
                  exact (Option.some.inj hm).symm
                have hs'ub : s'.Health ≤ s1.Health := by
                  apply hub' i s'
                  · rw [List.getElem?_set_eq h]
                  · rw [hid, ← hm']
                    exact hsq
                calc sm.Health ≤ s'.Health := by rw [hm']; exact hmono
                  _ ≤ s1.Health := hs'ub
              · apply hub' m sm _ hsq
                rw [List.getElem?_set_ne (fun hcon => hmi hcon.symm)]
                exact hm
            · obtain ⟨m, sm, hm, hsq', heq'⟩ := hatt'
              by_cases hmi : m = i
              · have hsm : sm = s' := by
                  rw [hmi, List.getElem?_set_eq h] at hm
                  exact (Option.some.inj hm).symm
                have hsq0 : areSnakeIDsOnSameSquad ss.squadMap s0.id
                    (snakes.get ⟨i, h⟩).id = true := by
                  rw [hsm, hid] at hsq'
                  exact hsq'
                rcases hatt with heq | ⟨k2, sk2, _, hk2i, hk2some, hk2sq, hk2eq⟩
                · exact ⟨i, snakes.get ⟨i, h⟩, hgeti, hsq0, by rw [heq', hsm, heq]⟩
                · exact ⟨k2, sk2, hk2some,
                    areSnakeIDs_trans ss.squadMap _ _ _ hsq0 hk2sq, by rw [heq', hsm, hk2eq]⟩
              · refine ⟨m, sm, ?_, hsq', heq'⟩
                rw [List.getElem?_set_ne (fun hcon => hmi hcon.symm)] at hm
                exact hm
      · -- eliminated snake: skipped
        have hcaseb : ((snakes.get ⟨i, h⟩).EliminatedCause == NotEliminated) = false :=
          beq_eq_false_iff_ne.mpr hcase
        have hstep : shareOuter ss snakes i = shareOuter ss snakes (i + 1) := by
          rw [shareOuter, dif_pos h]
          simp only [hcaseb, Bool.not_false, if_true]
        obtain ⟨out, hout, hlen, hpre, hpt⟩ := ih snakes (i + 1) (by omega)
        refine ⟨out, hstep ▸ hout, hlen, fun k hk => hpre k (by omega), ?_⟩
        intro k s0 hik hsome
        rcases Nat.eq_or_lt_of_le hik with rfl | hklt
        · have hs0 : s0 = snakes.get ⟨i, h⟩ := by
            rw [hgeti] at hsome
            exact (Option.some.inj hsome).symm
          have houti : out[i]? = some s0 := by
            rw [hpre i (by omega), hsome]
          refine ⟨s0, houti, rfl, rfl, rfl, rfl, rfl, le_refl _, fun _ => rfl, ?_⟩
          intro hlive
          rw [hs0] at hlive
          exact absurd hlive hcase
        · exact hpt k s0 (by omega) hsome
    · refine ⟨snakes, by rw [shareOuter, dif_neg h], rfl, fun k _ => rfl, ?_⟩
      intro k s0 hik hsome
      exfalso
      have : k < snakes.length := (List.getElem?_eq_some.mp hsome).1
      omega

/-- C4 counterexample squad map: "a", "c" and "z" all on squad "red". -/
def cexShareMap : List (String × String) := [("a", "red"), ("c", "red"), ("z", "red")]

/-- C4 counterexample squad settings: only `SharedHealth` enabled, over
`cexShareMap`. -/
def cexShareSquadSettings : SquadSettings :=
  { squadMap := cexShareMap, AllowBodyCollisions := false, SharedElimination := false,
    SharedHealth := true, SharedLength := false }

/-- C4 counterexample settings. -/
def cexShareSettings : Settings := exSettings cexShareSquadSettings

/-- C4 counterexample board: living squad-mates "a" (health 10) and "c"
(health 50), plus eliminated squad-mate "z" (health 80). -/
def cexShareBoard : BoardState :=
  exBoard [{ exSnakeA with Health := 10 },
    { exSnakeC with Health := 50 },
    { id := "z", Body := [⟨7, 7⟩], Health := 80,
      EliminatedCause := EliminatedByOutOfHealth, EliminatedBy := "", EliminatedOnTurn := 2 }]

/-- C4 counterexample: with only `SharedHealth` enabled on a
non-initialization turn, the living same-squad pair "a"/"c" both end the
stage with health 80 — the health of their *eliminated* squad-mate "z" —
although no living member of the squad entered the stage with health 80.
Their final health therefore does not equal the maximum health across the
squad's living members (which is 50), refuting the claim as stated. -/
theorem shareAttributesSquad_sharedHealth_claim_counterexample :
    cexShareSettings.squadSettings.SharedHealth = true ∧
    IsInitialisation cexShareBoard cexShareSettings exMoves = false ∧
    (∀ s ∈ cexShareBoard.Snakes, s.EliminatedCause = NotEliminated →
      s.Health ≤ 50 ∧ ¬ s.Health = 80) ∧
    (∀ s ∈ cexShareBoard.Snakes,
      areSnakeIDsOnSameSquad cexShareSettings.squadSettings.squadMap "a" s.id = true) ∧
    (∃ out, ShareAttributesSquad cexShareBoard cexShareSettings exMoves = .ok (false, out) ∧
      out.Snakes.map Snake.Health = [80, 80, 80] ∧
      out.Snakes.map Snake.EliminatedCause =
        [NotEliminated, NotEliminated, EliminatedByOutOfHealth]) := by
  refine ⟨rfl, rfl, by decide, by decide, ?_⟩
  refine ⟨exBoard [{ exSnakeA with Health := 80 },
    { exSnakeC with Health := 80 },
    { id := "z", Body := [⟨7, 7⟩], Health := 80,
      EliminatedCause := EliminatedByOutOfHealth, EliminatedBy := "", EliminatedOnTurn := 2 }],
    ?_, rfl, rfl⟩
  simp [ShareAttributesSquad, IsInitialisation, exMoves, shareOuter, shareInner,
    shareWithOther, cexShareBoard, cexShareSettings, cexShareSquadSettings, cexShareMap,
    exBoard, exSettings, exSnakeA, exSnakeC, areSnakesOnSameSquad, areSnakeIDsOnSameSquad,
    mapGet]

/-- C4 (amended): with only `SharedHealth` enabled on a non-initialization
turn the stage succeeds, changes no board field but snake healths, never
lowers a health, leaves eliminated snakes untouched, and raises every living
snake's health to the maximum health found across *all* members of its squad
at stage entry — eliminated members included (an upper bound of all
same-squad entry healths that is attained by one of them). -/
theorem shareAttributesSquad_sharedHealth_correct (b : BoardState) (settings : Settings)
    (moves : List SnakeMove)
    (hinit : IsInitialisation b settings moves = false)
    (hh : settings.squadSettings.SharedHealth = true)
    (hl : settings.squadSettings.SharedLength = false)
    (he : settings.squadSettings.SharedElimination = false) :
    ∃ b', ShareAttributesSquad b settings moves = .ok (false, b') ∧
      b'.Width = b.Width ∧ b'.Height = b.Height ∧ b'.Turn = b.Turn ∧
      b'.Food = b.Food ∧ b'.Hazards = b.Hazards ∧
      b'.Snakes.length = b.Snakes.length ∧
      (∀ (k : Nat) (s0 : Snake), b.Snakes[k]? = some s0 →
        ∃ s1, b'.Snakes[k]? = some s1 ∧
          s1.id = s0.id ∧ s1.Body = s0.Body ∧ s1.EliminatedCause = s0.EliminatedCause ∧
          s1.EliminatedBy = s0.EliminatedBy ∧ s1.EliminatedOnTurn = s0.EliminatedOnTurn ∧
          s0.Health ≤ s1.Health ∧
          (s0.EliminatedCause ≠ NotEliminated → s1 = s0) ∧
          (s0.EliminatedCause = NotEliminated →
            (∀ (m : Nat) (sm : Snake), b.Snakes[m]? = some sm →
              areSnakeIDsOnSameSquad settings.squadSettings.squadMap s0.id sm.id = true →
              sm.Health ≤ s1.Health) ∧
            (∃ (m : Nat) (sm : Snake), b.Snakes[m]? = some sm ∧
              areSnakeIDsOnSameSquad settings.squadSettings.squadMap s0.id sm.id = true ∧
              s1.Health = sm.Health))) := by
  obtain ⟨out, hout, hlen, _, hpt⟩ := shareOuter_health settings.squadSettings hh hl he
    b.Snakes.length b.Snakes 0 (by omega)
  refine ⟨{ b with Snakes := out }, ?_, rfl, rfl, rfl, rfl, rfl, hlen, ?_⟩
  · unfold ShareAttributesSquad
    simp only [hinit, Bool.false_eq_true, if_false, he, hl, hh, Bool.or_false,
      Bool.false_or, Bool.or_true, Bool.not_true, hout]
  · intro k s0 hsome
    exact hpt k s0 (Nat.zero_le k) hsome

/-- C4 witness: the spec's own example — living squad-mates "a" at health 10
and "c" at health 80, sharing enabled. -/
theorem shareAttributesSquad_sharedHealth_correct_witness :
    ∃ b', ShareAttributesSquad (exBoard [{ exSnakeA with Health := 10 }, exSnakeC])
        (exSettings (exSquadSettings false false true false)) exMoves = .ok (false, b') ∧
      b'.Width = (exBoard [{ exSnakeA with Health := 10 }, exSnakeC]).Width ∧
      b'.Height = (exBoard [{ exSnakeA with Health := 10 }, exSnakeC]).Height ∧
      b'.Turn = (exBoard [{ exSnakeA with Health := 10 }, exSnakeC]).Turn ∧
      b'.Food = (exBoard [{ exSnakeA with Health := 10 }, exSnakeC]).Food ∧
      b'.Hazards = (exBoard [{ exSnakeA with Health := 10 }, exSnakeC]).Hazards ∧
      b'.Snakes.length = (exBoard [{ exSnakeA with Health := 10 }, exSnakeC]).Snakes.length ∧
      (∀ (k : Nat) (s0 : Snake),
        (exBoard [{ exSnakeA with Health := 10 }, exSnakeC]).Snakes[k]? = some s0 →
        ∃ s1, b'.Snakes[k]? = some s1 ∧
          s1.id = s0.id ∧ s1.Body = s0.Body ∧ s1.EliminatedCause = s0.EliminatedCause ∧
          s1.EliminatedBy = s0.EliminatedBy ∧ s1.EliminatedOnTurn = s0.EliminatedOnTurn ∧
          s0.Health ≤ s1.Health ∧
          (s0.EliminatedCause ≠ NotEliminated → s1 = s0) ∧
          (s0.EliminatedCause = NotEliminated →
            (∀ (m : Nat) (sm : Snake),
              (exBoard [{ exSnakeA with Health := 10 }, exSnakeC]).Snakes[m]? = some sm →
              areSnakeIDsOnSameSquad
                (exSettings (exSquadSettings false false true false)).squadSettings.squadMap
                s0.id sm.id = true →
              sm.Health ≤ s1.Health) ∧
            (∃ (m : Nat) (sm : Snake),
              (exBoard [{ exSnakeA with Health := 10 }, exSnakeC]).Snakes[m]? = some sm ∧
              areSnakeIDsOnSameSquad
                (exSettings (exSquadSettings false false true false)).squadSettings.squadMap
                s0.id sm.id = true ∧
              s1.Health = sm.Health))) :=
  shareAttributesSquad_sharedHealth_correct
    (exBoard [{ exSnakeA with Health := 10 }, exSnakeC])
    (exSettings (exSquadSettings false false true false)) exMoves rfl rfl rfl rfl

/-! ## C5: elimination sharing -/

/-- With only `SharedElimination` enabled, one inner-loop iteration
eliminates the snake (cause `EliminatedBySquad`, culprit left empty) exactly
when it is living and the same-squad other is eliminated. -/
theorem shareWithOther_elim_eq (ss : SquadSettings) (he : ss.SharedElimination = true)
    (hh : ss.SharedHealth = false) (hl : ss.SharedLength = false) (s other : Snake) :
    shareWithOther ss s other =
      .ok (if areSnakesOnSameSquad ss.squadMap s other ∧ s.EliminatedCause = NotEliminated ∧
          ¬ other.EliminatedCause = NotEliminated
        then { s with EliminatedCause := EliminatedBySquad, EliminatedBy := "" } else s) := by
  unfold shareWithOther
  by_cases hsq : areSnakesOnSameSquad ss.squadMap s other
  · by_cases hc1 : s.EliminatedCause = NotEliminated
    · by_cases hc2 : other.EliminatedCause = NotEliminated
      · simp [hsq, he, hh, hl, hc1, hc2]
      · simp [hsq, he, hh, hl, hc1, hc2]
    · simp [hsq, he, hh, hl, hc1]
  · simp [hsq]

/-- With only `SharedElimination` enabled, the inner loop never fails,
changes nothing but the elimination fields, leaves an already-eliminated
snake untouched, and eliminates a living snake with cause
`EliminatedBySquad` and an empty culprit as soon as some same-squad snake at
an index `≥ j` other than `i` is eliminated. -/
theorem shareInner_elim (ss : SquadSettings) (he : ss.SharedElimination = true)
    (hh : ss.SharedHealth = false) (hl : ss.SharedLength = false)
    (snakes : List Snake) (i : Nat) :
    ∀ (j : Nat) (s : Snake),
      ∃ s', shareInner ss snakes i j s = .ok s' ∧
        s'.id = s.id ∧ s'.Body = s.Body ∧ s'.Health = s.Health ∧
        s'.EliminatedOnTurn = s.EliminatedOnTurn ∧
        (¬ s.EliminatedCause = NotEliminated → s' = s) ∧
        (s.EliminatedCause = NotEliminated →
          (∃ (k : Nat) (sk : Snake), j ≤ k ∧ k ≠ i ∧ snakes[k]? = some sk ∧
            areSnakeIDsOnSameSquad ss.squadMap s.id sk.id = true ∧
            ¬ sk.EliminatedCause = NotEliminated) →
          s'.EliminatedCause = EliminatedBySquad ∧ s'.EliminatedBy = "") := by
  have exitCase : ∀ (j : Nat) (s : Snake), ¬ j < snakes.length →
      ∃ s', shareInner ss snakes i j s = .ok s' ∧
        s'.id = s.id ∧ s'.Body = s.Body ∧ s'.Health = s.Health ∧
        s'.EliminatedOnTurn = s.EliminatedOnTurn ∧
        (¬ s.EliminatedCause = NotEliminated → s' = s) ∧
        (s.EliminatedCause = NotEliminated →
          (∃ (k : Nat) (sk : Snake), j ≤ k ∧ k ≠ i ∧ snakes[k]? = some sk ∧
            areSnakeIDsOnSameSquad ss.squadMap s.id sk.id = true ∧
            ¬ sk.EliminatedCause = NotEliminated) →
          s'.EliminatedCause = EliminatedBySquad ∧ s'.EliminatedBy = "") := by
    intro j s h
    refine ⟨s, by rw [shareInner, dif_neg h], rfl, rfl, rfl, rfl, fun _ => rfl, ?_⟩
    intro _ ⟨k, sk, hjk, _, hsome, _, _⟩
    exfalso
    have hk : k < snakes.length := (List.getElem?_eq_some.mp hsome).1
    exact h (lt_of_le_of_lt hjk hk)
  suffices main : ∀ (d j : Nat) (s : Snake), snakes.length ≤ j + d →
      ∃ s', shareInner ss snakes i j s = .ok s' ∧
        s'.id = s.id ∧ s'.Body = s.Body ∧ s'.Health = s.Health ∧
        s'.EliminatedOnTurn = s.EliminatedOnTurn ∧
        (¬ s.EliminatedCause = NotEliminated → s' = s) ∧
        (s.EliminatedCause = NotEliminated →
          (∃ (k : Nat) (sk : Snake), j ≤ k ∧ k ≠ i ∧ snakes[k]? = some sk ∧
            areSnakeIDsOnSameSquad ss.squadMap s.id sk.id = true ∧
            ¬ sk.EliminatedCause = NotEliminated) →
          s'.EliminatedCause = EliminatedBySquad ∧ s'.EliminatedBy = "") by
    intro j s
    exact main snakes.length j s (by omega)
  intro d
  induction d with
  | zero =>
    intro j s hle
    exact exitCase j s (by omega)
  | succ d ih =>
    intro j s hle
    by_cases h : j < snakes.length
    · have hget : snakes[j]? = some (snakes.get ⟨j, h⟩) := by
        rw [List.getElem?_eq_getElem h]
        simp
      by_cases hcond : areSnakesOnSameSquad ss.squadMap s
          (if j = i then s else snakes.get ⟨j, h⟩) = true ∧ s.EliminatedCause = NotEliminated ∧
          ¬ (if j = i then s else snakes.get ⟨j, h⟩).EliminatedCause = NotEliminated
      · -- the elimination fires at this step
        have hshare : shareWithOther ss s (if j = i then s else snakes.get ⟨j, h⟩) =
            .ok { s with EliminatedCause := EliminatedBySquad, EliminatedBy := "" } := by
          rw [shareWithOther_elim_eq ss he hh hl, if_pos hcond]
        obtain ⟨s', hs', hid, hbody, hhp, hturn, hfroz, _⟩ :=
          ih (j + 1) { s with EliminatedCause := EliminatedBySquad, EliminatedBy := "" }
            (by omega)
        have hstep : shareInner ss snakes i j s =
            shareInner ss snakes i (j + 1)
              { s with EliminatedCause := EliminatedBySquad, EliminatedBy := "" } := by
          rw [shareInner, dif_pos h, hshare]
        have hs'eq : s' = { s with EliminatedCause := EliminatedBySquad, EliminatedBy := "" } :=
          hfroz (by simp)
        refine ⟨s', by rw [hstep]; exact hs', hid, hbody, hhp, hturn, ?_, ?_⟩
        · intro hne
          exact absurd hcond.2.1 hne
        · intro _ _
          rw [hs'eq]
          exact ⟨rfl, rfl⟩
      · -- no elimination at this step
        have hshare : shareWithOther ss s (if j = i then s else snakes.get ⟨j, h⟩) =
            .ok s := by
          rw [shareWithOther_elim_eq ss he hh hl, if_neg]
          intro hcon
          exact hcond ⟨hcon.1, hcon.2.1, hcon.2.2⟩
        obtain ⟨s', hs', hid, hbody, hhp, hturn, hfroz, helim⟩ := ih (j + 1) s (by omega)
        have hstep : shareInner ss snakes i j s = shareInner ss snakes i (j + 1) s := by
          rw [shareInner, dif_pos h, hshare]
        refine ⟨s', by rw [hstep]; exact hs', hid, hbody, hhp, hturn, hfroz, ?_⟩
        intro hlive ⟨k, sk, hjk, hki, hsome, hsq, hne⟩
        rcases Nat.eq_or_lt_of_le hjk with rfl | hlt
        · exfalso
          have hsk : sk = snakes.get ⟨j, h⟩ := by
            rw [hget] at hsome
            exact (Option.some.inj hsome).symm
          apply hcond
          refine ⟨?_, hlive, ?_⟩
          · rw [if_neg hki, ← hsk]
            exact hsq
          · rw [if_neg hki, ← hsk]
            exact hne
        · exact helim hlive ⟨k, sk, hlt, hki, hsome, hsq, hne⟩
    · exact exitCase j s h

/-- With only `SharedElimination` enabled, the outer loop never fails,
leaves already-eliminated snakes (and everything but elimination fields)
untouched, and eliminates with cause `EliminatedBySquad` and empty culprit
every living snake having some eliminated same-squad snake at loop entry. -/
theorem shareOuter_elim (ss : SquadSettings) (he : ss.SharedElimination = true)
    (hh : ss.SharedHealth = false) (hl : ss.SharedLength = false) :
    ∀ (d : Nat) (snakes : List Snake) (i : Nat), snakes.length ≤ i + d →
      ∃ out, shareOuter ss snakes i = .ok out ∧
        out.length = snakes.length ∧
        (∀ k, k < i → out[k]? = snakes[k]?) ∧
        (∀ k s0, i ≤ k → snakes[k]? = some s0 →
          ∃ s1, out[k]? = some s1 ∧
            s1.id = s0.id ∧ s1.Body = s0.Body ∧ s1.Health = s0.Health ∧
            s1.EliminatedOnTurn = s0.EliminatedOnTurn ∧
            (¬ s0.EliminatedCause = NotEliminated → s1 = s0) ∧
            (s0.EliminatedCause = NotEliminated →
              (∃ (m : Nat) (sm : Snake), snakes[m]? = some sm ∧
                areSnakeIDsOnSameSquad ss.squadMap s0.id sm.id = true ∧
                ¬ sm.EliminatedCause = NotEliminated) →
              s1.EliminatedCause = EliminatedBySquad ∧ s1.EliminatedBy = "")) := by
  intro d
  induction d with
  | zero =>
    intro snakes i hle
    refine ⟨snakes, by rw [shareOuter, dif_neg (by omega)], rfl, fun k _ => rfl, ?_⟩
    intro k s0 hik hsome
    exfalso
    have : k < snakes.length := (List.getElem?_eq_some.mp hsome).1
    omega
  | succ d ih =>
    intro snakes i hle
    by_cases h : i < snakes.length
    · have hgeti : snakes[i]? = some (snakes.get ⟨i, h⟩) := by
        rw [List.getElem?_eq_getElem h]
        simp
      by_cases hcase : (snakes.get ⟨i, h⟩).EliminatedCause = NotEliminated
      · -- living snake at index i
        have hcaseb : ((snakes.get ⟨i, h⟩).EliminatedCause == NotEliminated) = true :=
          beq_iff_eq.mpr hcase
        obtain ⟨s', hs', hid, hbody, hhp, hturn, hfroz, helim⟩ :=
          shareInner_elim ss he hh hl snakes i 0 (snakes.get ⟨i, h⟩)
        have hstep : shareOuter ss snakes i = shareOuter ss (snakes.set i s') (i + 1) := by
          rw [shareOuter, dif_pos h]
          simp only [hcaseb, Bool.not_true, Bool.false_eq_true, if_false, hs']
        obtain ⟨out, hout, hlen, hpre, hpt⟩ := ih (snakes.set i s') (i + 1)
          (by rw [List.length_set]; omega)
        refine ⟨out, hstep ▸ hout, by rw [hlen, List.length_set], ?_, ?_⟩
        · intro k hk
          rw [hpre k (by omega), List.getElem?_set_ne (by omega)]
        · intro k s0 hik hsome
          rcases Nat.eq_or_lt_of_le hik with rfl | hklt
          · have hs0 : s0 = snakes.get ⟨i, h⟩ := by
              rw [hgeti] at hsome
              exact (Option.some.inj hsome).symm
            have houti : out[i]? = some s' := by
              rw [hpre i (by omega), List.getElem?_set_eq h]
            subst hs0
            refine ⟨s', houti, hid, hbody, hhp, hturn, ?_, ?_⟩
            · intro hne
              exact absurd hcase hne
            · intro _ ⟨m, sm, hm, hsq, hne⟩
              have hmi : m ≠ i := by
                intro hmi
                rw [hmi, hgeti] at hm
                rw [(Option.some.inj hm).symm] at hne
                exact hne hcase
              exact helim hcase ⟨m, sm, Nat.zero_le m, hmi, hm, hsq, hne⟩
          · have hsome' : (snakes.set i s')[k]? = some s0 := by
              rw [List.getElem?_set_ne (by omega)]
              exact hsome
            obtain ⟨s1, hs1out, h1id, h1body, h1hp, h1turn, h1froz, h1elim⟩ :=
              hpt k s0 (by omega) hsome'
            refine ⟨s1, hs1out, h1id, h1body, h1hp, h1turn, h1froz, ?_⟩
            intro hlive ⟨m, sm, hm, hsq, hne⟩
            have hmi : m ≠ i := by
              intro hmi
              rw [hmi, hgeti] at hm
              rw [(Option.some.inj hm).symm] at hne
              exact hne hcase
            apply h1elim hlive
            refine ⟨m, sm, ?_, hsq, hne⟩
            rw [List.getElem?_set_ne (fun hcon => hmi hcon.symm)]
            exact hm
      · -- eliminated snake at index i: skipped
        have hcaseb : ((snakes.get ⟨i, h⟩).EliminatedCause == NotEliminated) = false :=
          beq_eq_false_iff_ne.mpr hcase
        have hstep : shareOuter ss snakes i = shareOuter ss snakes (i + 1) := by
          rw [shareOuter, dif_pos h]
          simp only [hcaseb, Bool.not_false, if_true]
        obtain ⟨out, hout, hlen, hpre, hpt⟩ := ih snakes (i + 1) (by omega)
        refine ⟨out, hstep ▸ hout, hlen, fun k hk => hpre k (by omega), ?_⟩
        intro k s0 hik hsome
        rcases Nat.eq_or_lt_of_le hik with rfl | hklt
        · have hs0 : s0 = snakes.get ⟨i, h⟩ := by
            rw [hgeti] at hsome
            exact (Option.some.inj hsome).symm
          have houti : out[i]? = some s0 := by
            rw [hpre i (by omega), hsome]
          refine ⟨s0, houti, rfl, rfl, rfl, rfl, fun _ => rfl, ?_⟩
          intro hlive
          rw [hs0] at hlive
          exact absurd hlive hcase
        · exact hpt k s0 (by omega) hsome
    · refine ⟨snakes, by rw [shareOuter, dif_neg h], rfl, fun k _ => rfl, ?_⟩
      intro k s0 hik hsome
      exfalso
      have : k < snakes.length := (List.getElem?_eq_some.mp hsome).1
      omega

/-- C5: with `SharedElimination` enabled (and the other sharing flags off)
on a non-initialization turn, the stage succeeds; every living snake that
has a squad-mate with `EliminatedCause ≠ NotEliminated` at stage entry ends
the stage eliminated with cause `EliminatedBySquad` and an empty
`EliminatedBy`, while bodies, healths, ids and already-eliminated snakes are
untouched. -/
theorem shareAttributesSquad_sharedElimination_correct (b : BoardState) (settings : Settings)
    (moves : List SnakeMove)
    (hinit : IsInitialisation b settings moves = false)
    (he : settings.squadSettings.SharedElimination = true)
    (hh : settings.squadSettings.SharedHealth = false)
    (hl : settings.squadSettings.SharedLength = false) :
    ∃ b', ShareAttributesSquad b settings moves = .ok (false, b') ∧
      b'.Width = b.Width ∧ b'.Height = b.Height ∧ b'.Turn = b.Turn ∧
      b'.Food = b.Food ∧ b'.Hazards = b.Hazards ∧
      b'.Snakes.length = b.Snakes.length ∧
      (∀ (k : Nat) (s0 : Snake), b.Snakes[k]? = some s0 →
        ∃ s1, b'.Snakes[k]? = some s1 ∧
          s1.id = s0.id ∧ s1.Body = s0.Body ∧ s1.Health = s0.Health ∧
          s1.EliminatedOnTurn = s0.EliminatedOnTurn ∧
          (¬ s0.EliminatedCause = NotEliminated → s1 = s0) ∧
          (s0.EliminatedCause = NotEliminated →
            (∃ (m : Nat) (sm : Snake), b.Snakes[m]? = some sm ∧
              areSnakeIDsOnSameSquad settings.squadSettings.squadMap s0.id sm.id = true ∧
              ¬ sm.EliminatedCause = NotEliminated) →
            s1.EliminatedCause = EliminatedBySquad ∧ s1.EliminatedBy = "")) := by
  obtain ⟨out, hout, hlen, _, hpt⟩ := shareOuter_elim settings.squadSettings he hh hl
    b.Snakes.length b.Snakes 0 (by omega)
  refine ⟨{ b with Snakes := out }, ?_, rfl, rfl, rfl, rfl, rfl, hlen, ?_⟩
  · unfold ShareAttributesSquad
    simp only [hinit, Bool.false_eq_true, if_false, he, hl, hh, Bool.or_false,
      Bool.false_or, Bool.true_or, Bool.or_true, Bool.not_true, hout]
  · intro k s0 hsome
    exact hpt k s0 (Nat.zero_le k) hsome

/-- C5 witness: living snake "a" whose squad-mate "c" is eliminated; after
the stage "a" is `EliminatedBySquad` with empty culprit. -/
theorem shareAttributesSquad_sharedElimination_correct_witness :
    ∃ b', ShareAttributesSquad
        (exBoard [exSnakeA, { exSnakeC with EliminatedCause := EliminatedByOutOfHealth }])
        (exSettings (exSquadSettings false true false false)) exMoves = .ok (false, b') ∧
      b'.Width = 11 ∧ b'.Height = 11 ∧ b'.Turn = 3 ∧ b'.Food = [] ∧ b'.Hazards = [] ∧
      b'.Snakes.length = 2 ∧
      (∀ (k : Nat) (s0 : Snake),
        (exBoard [exSnakeA,
          { exSnakeC with EliminatedCause := EliminatedByOutOfHealth }]).Snakes[k]? = some s0 →
        ∃ s1, b'.Snakes[k]? = some s1 ∧
          s1.id = s0.id ∧ s1.Body = s0.Body ∧ s1.Health = s0.Health ∧
          s1.EliminatedOnTurn = s0.EliminatedOnTurn ∧
          (¬ s0.EliminatedCause = NotEliminated → s1 = s0) ∧
          (s0.EliminatedCause = NotEliminated →
            (∃ (m : Nat) (sm : Snake),
              (exBoard [exSnakeA,
                { exSnakeC with EliminatedCause := EliminatedByOutOfHealth }]).Snakes[m]? =
                some sm ∧
              areSnakeIDsOnSameSquad
                (exSettings (exSquadSettings false true false false)).squadSettings.squadMap
                s0.id sm.id = true ∧
              ¬ sm.EliminatedCause = NotEliminated) →
            s1.EliminatedCause = EliminatedBySquad ∧ s1.EliminatedBy = "")) :=
  shareAttributesSquad_sharedElimination_correct
    (exBoard [exSnakeA, { exSnakeC with EliminatedCause := EliminatedByOutOfHealth }])
    (exSettings (exSquadSettings false true false false)) exMoves rfl rfl rfl rfl

/-! ## C6: length sharing -/

/-- Appending copies of the last element keeps the last element. -/
theorem getLast?_append_replicate {α : Type} (l : List α) (t : α) (k : Nat)
    (h : l.getLast? = some t) : (l ++ List.replicate k t).getLast? = some t := by
  cases k with
  | zero => simpa using h
  | succ k =>
    rw [List.replicate_add, List.replicate_one, ← List.append_assoc, List.getLast?_concat]

/-- `growSnake` on a non-empty body appends the last body segment. -/
theorem growSnake_eq_of_getLast (s : Snake) (t : Point) (h : s.Body.getLast? = some t) :
    growSnake s = { s with Body := s.Body ++ [t] } := by
  unfold growSnake
  rw [h]

/-- The grow-until loop on a non-empty body appends exactly the copies of
the tail segment needed to reach length `n` (none when already long
enough). -/
theorem growSnakeTo_eq (s : Snake) (n : Nat) (t : Point) (h : s.Body.getLast? = some t) :
    growSnakeTo s n = { s with Body := s.Body ++ List.replicate (n - s.Body.length) t } := by
  suffices main : ∀ (d : Nat) (s : Snake), s.Body.getLast? = some t → n - s.Body.length ≤ d →
      growSnakeTo s n = { s with Body := s.Body ++ List.replicate (n - s.Body.length) t } by
    exact main (n - s.Body.length) s h (le_refl _)
  intro d
  induction d with
  | zero =>
    intro s h hle
    have hge : ¬ s.Body.length < n := by omega
    rw [growSnakeTo, dif_neg hge]
    have : n - s.Body.length = 0 := by omega
    rw [this]
    simp
  | succ d ih =>
    intro s h hle
    by_cases hlt : s.Body.length < n
    · have hne : ¬ s.Body = [] := by
        intro hcon
        rw [List.getLast?_eq_none_iff.mpr hcon] at h
        cases h
      rw [growSnakeTo, dif_pos hlt, dif_neg hne,
        growSnake_eq_of_getLast s t h]
      have hlast : (s.Body ++ [t]).getLast? = some t := List.getLast?_concat _
      have hlen : (s.Body ++ [t]).length = s.Body.length + 1 := by simp
      have := ih { s with Body := s.Body ++ [t] } hlast (by simp; omega)
      rw [this]
      have harith : n - (s.Body.length + 1) + 1 = n - s.Body.length := by omega
      simp only [hlen, List.append_assoc]
      have : [t] ++ List.replicate (n - (s.Body.length + 1)) t =
          List.replicate (n - s.Body.length) t := by
        rw [← List.replicate_one (a := t), ← List.replicate_add]
        rw [show 1 + (n - (s.Body.length + 1)) = n - s.Body.length by omega]
      rw [this]
    · rw [growSnakeTo, dif_neg hlt]
      have : n - s.Body.length = 0 := by omega
      rw [this]
      simp

/-- With only `SharedLength` enabled, one inner-loop iteration grows the
snake to the other's length when both are on the same squad, failing when
either body is empty. -/
theorem shareWithOther_len_eq (ss : SquadSettings) (hl : ss.SharedLength = true)
    (hh : ss.SharedHealth = false) (he : ss.SharedElimination = false) (s other : Snake) :
    shareWithOther ss s other =
      (if areSnakesOnSameSquad ss.squadMap s other = true then
        (if s.Body.length = 0 ∨ other.Body.length = 0 then
          .error "found snake of zero length"
        else .ok (growSnakeTo s other.Body.length))
      else .ok s) := by
  unfold shareWithOther
  by_cases hsq : areSnakesOnSameSquad ss.squadMap s other
  · by_cases hz : s.Body.length = 0 ∨ other.Body.length = 0
    · have hzb : (s.Body.length == 0 || other.Body.length == 0) = true := by
        rcases hz with hz | hz <;> simp [hz]
      simp only [hsq, if_true, hh, Bool.false_and, Bool.false_eq_true, if_false, hl, hzb]
      rw [if_pos hz]
    · have hzb : (s.Body.length == 0 || other.Body.length == 0) = false := by
        push_neg at hz
        simp [hz.1, hz.2]
      simp only [hsq, if_true, hh, Bool.false_and, Bool.false_eq_true, if_false, hl, if_true,
        hzb, he, Bool.and_self_left]
      rw [if_neg hz]
  · simp [hsq]

/-- With only `SharedLength` enabled, the inner loop on a snake with an
empty body fails (index `i` itself, aliased to the snake, triggers the
zero-length check no later than when `j` reaches it). -/
theorem shareInner_len_error_empty (ss : SquadSettings) (hl : ss.SharedLength = true)
    (hh : ss.SharedHealth = false) (he : ss.SharedElimination = false)
    (snakes : List Snake) (i : Nat) (hi : i < snakes.length) :
    ∀ (j : Nat) (s : Snake), j ≤ i → s.Body = [] →
      ∃ e, shareInner ss snakes i j s = .error e := by
  suffices main : ∀ (d j : Nat) (s : Snake), i - j ≤ d → j ≤ i → s.Body = [] →
      ∃ e, shareInner ss snakes i j s = .error e by
    intro j s hji hbody
    exact main (i - j) j s (le_refl _) hji hbody
  intro d
  induction d with
  | zero =>
    intro j s hd hji hbody
    have hji' : j = i := by omega
    have h : j < snakes.length := by omega
    have hz : s.Body.length = 0 ∨ (if j = i then s else snakes.get ⟨j, h⟩).Body.length = 0 := by
      left
      rw [hbody]
      rfl
    have hsq : areSnakesOnSameSquad ss.squadMap s (if j = i then s else snakes.get ⟨j, h⟩) =
        true := by
      rw [if_pos hji']
      exact areSnakeIDs_refl ss.squadMap s.id
    refine ⟨"found snake of zero length", ?_⟩
    rw [shareInner, dif_pos h, shareWithOther_len_eq ss hl hh he, if_pos hsq, if_pos hz]
  | succ d ih =>
    intro j s hd hji hbody
    have h : j < snakes.length := by omega
    by_cases hji' : j = i
    · have hz : s.Body.length = 0 ∨
          (if j = i then s else snakes.get ⟨j, h⟩).Body.length = 0 := by
        left
        rw [hbody]
        rfl
      have hsq : areSnakesOnSameSquad ss.squadMap s
          (if j = i then s else snakes.get ⟨j, h⟩) = true := by
        rw [if_pos hji']
        exact areSnakeIDs_refl ss.squadMap s.id
      refine ⟨"found snake of zero length", ?_⟩
      rw [shareInner, dif_pos h, shareWithOther_len_eq ss hl hh he, if_pos hsq, if_pos hz]
    · by_cases hsq : areSnakesOnSameSquad ss.squadMap s
          (if j = i then s else snakes.get ⟨j, h⟩) = true
      · have hz : s.Body.length = 0 ∨
            (if j = i then s else snakes.get ⟨j, h⟩).Body.length = 0 := by
          left
          rw [hbody]
          rfl
        refine ⟨"found snake of zero length", ?_⟩
        rw [shareInner, dif_pos h, shareWithOther_len_eq ss hl hh he, if_pos hsq, if_pos hz]
      · have hshare : shareWithOther ss s (if j = i then s else snakes.get ⟨j, h⟩) =
            .ok s := by
          rw [shareWithOther_len_eq ss hl hh he, if_neg hsq]
        obtain ⟨e, he'⟩ := ih (j + 1) s (by omega) (by omega) hbody
        refine ⟨e, ?_⟩
        rw [shareInner, dif_pos h, hshare]
        exact he'

/-- With only `SharedLength` enabled, the inner loop fails when some scanned
same-squad snake (index `≥ j`, other than `i`) has an empty body. -/
theorem shareInner_len_error_witness (ss : SquadSettings) (hl : ss.SharedLength = true)
    (hh : ss.SharedHealth = false) (he : ss.SharedElimination = false)
    (snakes : List Snake) (i : Nat) :
    ∀ (j : Nat) (s : Snake), s.Body ≠ [] →
      (∃ (k : Nat) (sk : Snake), j ≤ k ∧ k ≠ i ∧ snakes[k]? = some sk ∧
        areSnakeIDsOnSameSquad ss.squadMap s.id sk.id = true ∧ sk.Body = []) →
      ∃ e, shareInner ss snakes i j s = .error e := by
  suffices main : ∀ (d j : Nat) (s : Snake), snakes.length ≤ j + d → s.Body ≠ [] →
      (∃ (k : Nat) (sk : Snake), j ≤ k ∧ k ≠ i ∧ snakes[k]? = some sk ∧
        areSnakeIDsOnSameSquad ss.squadMap s.id sk.id = true ∧ sk.Body = []) →
      ∃ e, shareInner ss snakes i j s = .error e by
    intro j s hbody hwit
    exact main snakes.length j s (by omega) hbody hwit
  intro d
  induction d with
  | zero =>
    intro j s hd hbody ⟨k, sk, hjk, _, hsome, _, _⟩
    exfalso
    have : k < snakes.length := (List.getElem?_eq_some.mp hsome).1
    omega
  | succ d ih =>
    intro j s hd hbody ⟨k, sk, hjk, hki, hsome, hsq, hskbody⟩
    have hklen : k < snakes.length := (List.getElem?_eq_some.mp hsome).1
    have h : j < snakes.length := by omega
    obtain ⟨t, ht⟩ : ∃ t, s.Body.getLast? = some t := by
      cases hgl : s.Body.getLast? with
      | none => exact absurd (List.getLast?_eq_none_iff.mp hgl) hbody
      | some t => exact ⟨t, rfl⟩
    by_cases hji : j = i
    · -- aliased step: no-op, witness is strictly ahead
      have hsqs : areSnakesOnSameSquad ss.squadMap s
          (if j = i then s else snakes.get ⟨j, h⟩) = true := by
        rw [if_pos hji]
        exact areSnakeIDs_refl ss.squadMap s.id
      have hz : ¬ (s.Body.length = 0 ∨
          (if j = i then s else snakes.get ⟨j, h⟩).Body.length = 0) := by
        rw [if_pos hji]
        simp [List.length_eq_zero, hbody]
      have hgrow : growSnakeTo s (if j = i then s else snakes.get ⟨j, h⟩).Body.length = s := by
        rw [if_pos hji, growSnakeTo_eq s _ t ht]
        simp
      have hshare : shareWithOther ss s (if j = i then s else snakes.get ⟨j, h⟩) = .ok s := by
        rw [shareWithOther_len_eq ss hl hh he, if_pos hsqs, if_neg hz, hgrow]
      obtain ⟨e, he'⟩ := ih (j + 1) s (by omega) hbody
        ⟨k, sk, by omega, hki, hsome, hsq, hskbody⟩
      refine ⟨e, ?_⟩
      rw [shareInner, dif_pos h, hshare]
      exact he'
    · by_cases hsqs : areSnakesOnSameSquad ss.squadMap s
          (if j = i then s else snakes.get ⟨j, h⟩) = true
      · by_cases hoz : (snakes.get ⟨j, h⟩).Body = []
        · -- the scanned snake is empty: the zero-length check fires
          have hz : s.Body.length = 0 ∨
              (if j = i then s else snakes.get ⟨j, h⟩).Body.length = 0 := by
            right
            rw [if_neg hji, hoz]
            rfl
          refine ⟨"found snake of zero length", ?_⟩
          rw [shareInner, dif_pos h, shareWithOther_len_eq ss hl hh he, if_pos hsqs, if_pos hz]
        · have hz : ¬ (s.Body.length = 0 ∨
              (if j = i then s else snakes.get ⟨j, h⟩).Body.length = 0) := by
            rw [if_neg hji]
            rintro (hc | hc)
            · exact hbody (List.length_eq_zero.mp hc)
            · exact hoz (List.length_eq_zero.mp hc)
          have hs2 : growSnakeTo s (if j = i then s else snakes.get ⟨j, h⟩).Body.length =
              { s with Body := s.Body ++
                List.replicate ((if j = i then s else snakes.get ⟨j, h⟩).Body.length -
                  s.Body.length) t } :=
            growSnakeTo_eq s _ t ht
          have hshare : shareWithOther ss s (if j = i then s else snakes.get ⟨j, h⟩) =
              .ok { s with Body := s.Body ++
                List.replicate ((if j = i then s else snakes.get ⟨j, h⟩).Body.length -
                  s.Body.length) t } := by
            rw [shareWithOther_len_eq ss hl hh he, if_pos hsqs, if_neg hz, hs2]
          have hkj : k ≠ j := by
            intro hkj
            apply hoz
            have hsk : sk = snakes.get ⟨j, h⟩ := by
              rw [hkj] at hsome
              rw [List.getElem?_eq_getElem h] at hsome
              simpa using hsome.symm
            rw [← hsk]
            exact hskbody
          obtain ⟨e, he'⟩ := ih (j + 1)
            { s with Body := s.Body ++
              List.replicate ((if j = i then s else snakes.get ⟨j, h⟩).Body.length -
                s.Body.length) t } (by omega) (by simp [hbody])
            ⟨k, sk, by omega, hki, hsome, hsq, hskbody⟩
          refine ⟨e, ?_⟩
          rw [shareInner, dif_pos h, hshare]
          exact he'
      · have hshare : shareWithOther ss s (if j = i then s else snakes.get ⟨j, h⟩) =
            .ok s := by
          rw [shareWithOther_len_eq ss hl hh he, if_neg hsqs]
        have hkj : k ≠ j := by
          intro hkj
          apply hsqs
          rw [if_neg hji]
          have hsk : sk = snakes.get ⟨j, h⟩ := by
            rw [hkj] at hsome
            rw [List.getElem?_eq_getElem h] at hsome
            simpa using hsome.symm
          show areSnakeIDsOnSameSquad ss.squadMap s.id (snakes.get ⟨j, h⟩).id = true
          rw [← hsk]
          exact hsq
        obtain ⟨e, he'⟩ := ih (j + 1) s (by omega) hbody
          ⟨k, sk, by omega, hki, hsome, hsq, hskbody⟩
        refine ⟨e, ?_⟩
        rw [shareInner, dif_pos h, hshare]
        exact he'

/-- With only `SharedLength` enabled, when every scanned same-squad snake
has a non-empty body, the inner loop succeeds, changes nothing but the body,
extends the body by copies of its original tail segment, never shrinks it,
ends at least as long as every scanned same-squad snake, and ends at a
length that was already present. -/
theorem shareInner_len_ok (ss : SquadSettings) (hl : ss.SharedLength = true)
    (hh : ss.SharedHealth = false) (he : ss.SharedElimination = false)
    (snakes : List Snake) (i : Nat) :
    ∀ (j : Nat) (s : Snake) (t : Point), s.Body.getLast? = some t →
      (∀ (k : Nat) (sk : Snake), j ≤ k → k ≠ i → snakes[k]? = some sk →
        areSnakeIDsOnSameSquad ss.squadMap s.id sk.id = true → sk.Body ≠ []) →
      ∃ s', shareInner ss snakes i j s = .ok s' ∧
        s'.id = s.id ∧ s'.Health = s.Health ∧ s'.EliminatedCause = s.EliminatedCause ∧
        s'.EliminatedBy = s.EliminatedBy ∧ s'.EliminatedOnTurn = s.EliminatedOnTurn ∧
        s'.Body = s.Body ++ List.replicate (s'.Body.length - s.Body.length) t ∧
        s.Body.length ≤ s'.Body.length ∧
        (∀ (k : Nat) (sk : Snake), j ≤ k → k ≠ i → snakes[k]? = some sk →
          areSnakeIDsOnSameSquad ss.squadMap s.id sk.id = true →
          sk.Body.length ≤ s'.Body.length) ∧
        (s'.Body.length = s.Body.length ∨ ∃ (k : Nat) (sk : Snake), j ≤ k ∧ k ≠ i ∧
          snakes[k]? = some sk ∧ areSnakeIDsOnSameSquad ss.squadMap s.id sk.id = true ∧
          s'.Body.length = sk.Body.length) := by
  have exitCase : ∀ (j : Nat) (s : Snake) (t : Point), ¬ j < snakes.length →
      ∃ s', shareInner ss snakes i j s = .ok s' ∧
        s'.id = s.id ∧ s'.Health = s.Health ∧ s'.EliminatedCause = s.EliminatedCause ∧
        s'.EliminatedBy = s.EliminatedBy ∧ s'.EliminatedOnTurn = s.EliminatedOnTurn ∧
        s'.Body = s.Body ++ List.replicate (s'.Body.length - s.Body.length) t ∧
        s.Body.length ≤ s'.Body.length ∧
        (∀ (k : Nat) (sk : Snake), j ≤ k → k ≠ i → snakes[k]? = some sk →
          areSnakeIDsOnSameSquad ss.squadMap s.id sk.id = true →
          sk.Body.length ≤ s'.Body.length) ∧
        (s'.Body.length = s.Body.length ∨ ∃ (k : Nat) (sk : Snake), j ≤ k ∧ k ≠ i ∧
          snakes[k]? = some sk ∧ areSnakeIDsOnSameSquad ss.squadMap s.id sk.id = true ∧
          s'.Body.length = sk.Body.length) := by
    intro j s t h
    refine ⟨s, by rw [shareInner, dif_neg h], rfl, rfl, rfl, rfl, rfl, by simp,
      le_refl _, ?_, Or.inl rfl⟩
    intro k sk hjk _ hsome _
    exfalso
    have hk : k < snakes.length := (List.getElem?_eq_some.mp hsome).1
    exact h (lt_of_le_of_lt hjk hk)
  suffices main : ∀ (d j : Nat) (s : Snake) (t : Point), snakes.length ≤ j + d →
      s.Body.getLast? = some t →
      (∀ (k : Nat) (sk : Snake), j ≤ k → k ≠ i → snakes[k]? = some sk →
        areSnakeIDsOnSameSquad ss.squadMap s.id sk.id = true → sk.Body ≠ []) →
      ∃ s', shareInner ss snakes i j s = .ok s' ∧
        s'.id = s.id ∧ s'.Health = s.Health ∧ s'.EliminatedCause = s.EliminatedCause ∧
        s'.EliminatedBy = s.EliminatedBy ∧ s'.EliminatedOnTurn = s.EliminatedOnTurn ∧
        s'.Body = s.Body ++ List.replicate (s'.Body.length - s.Body.length) t ∧
        s.Body.length ≤ s'.Body.length ∧
        (∀ (k : Nat) (sk : Snake), j ≤ k → k ≠ i → snakes[k]? = some sk →
          areSnakeIDsOnSameSquad ss.squadMap s.id sk.id = true →
          sk.Body.length ≤ s'.Body.length) ∧
        (s'.Body.length = s.Body.length ∨ ∃ (k : Nat) (sk : Snake), j ≤ k ∧ k ≠ i ∧
          snakes[k]? = some sk ∧ areSnakeIDsOnSameSquad ss.squadMap s.id sk.id = true ∧
          s'.Body.length = sk.Body.length) by
    intro j s t ht hyp
    exact main snakes.length j s t (by omega) ht hyp
  intro d
  induction d with
  | zero =>
    intro j s t hd ht _
    exact exitCase j s t (by omega)
  | succ d ih =>
    intro j s t hd ht hyp
    by_cases h : j < snakes.length
    · have hget : snakes[j]? = some (snakes.get ⟨j, h⟩) := by
        rw [List.getElem?_eq_getElem h]
        simp
      have hbody : s.Body ≠ [] := by
        intro hcon
        rw [List.getLast?_eq_none_iff.mpr hcon] at ht
        cases ht
      by_cases hji : j = i
      · -- aliased step: no-op
        have hsqs : areSnakesOnSameSquad ss.squadMap s
            (if j = i then s else snakes.get ⟨j, h⟩) = true := by
          rw [if_pos hji]
          exact areSnakeIDs_refl ss.squadMap s.id
        have hz : ¬ (s.Body.length = 0 ∨
            (if j = i then s else snakes.get ⟨j, h⟩).Body.length = 0) := by
          rw [if_pos hji]
          rintro (hc | hc) <;> exact hbody (List.length_eq_zero.mp hc)
        have hgrow : growSnakeTo s (if j = i then s else snakes.get ⟨j, h⟩).Body.length = s := by
          rw [if_pos hji, growSnakeTo_eq s _ t ht]
          simp
        have hshare : shareWithOther ss s (if j = i then s else snakes.get ⟨j, h⟩) =
            .ok s := by
          rw [shareWithOther_len_eq ss hl hh he, if_pos hsqs, if_neg hz, hgrow]
        obtain ⟨s', hs', hid, hhp, hc1, hc2, hc3, hext, hmono, hub, hatt⟩ :=
          ih (j + 1) s t (by omega) ht
            (fun k sk hjk hki hsome hsq => hyp k sk (by omega) hki hsome hsq)
        have hstep : shareInner ss snakes i j s = shareInner ss snakes i (j + 1) s := by
          rw [shareInner, dif_pos h, hshare]
        refine ⟨s', by rw [hstep]; exact hs', hid, hhp, hc1, hc2, hc3, hext, hmono, ?_, ?_⟩
        · intro k sk hjk hki hsome hsq
          exact hub k sk (by omega) hki hsome hsq
        · rcases hatt with heq | ⟨k2, sk2, hk1, hk2, hk3, hk4, hk5⟩
          · exact Or.inl heq
          · exact Or.inr ⟨k2, sk2, by omega, hk2, hk3, hk4, hk5⟩
      · by_cases hsqs : areSnakesOnSameSquad ss.squadMap s
            (if j = i then s else snakes.get ⟨j, h⟩) = true
        · -- same squad: grow to the other's length
          have hsqid : areSnakeIDsOnSameSquad ss.squadMap s.id (snakes.get ⟨j, h⟩).id =
              true := by
            rw [if_neg hji] at hsqs
            exact hsqs
          have hobody : (snakes.get ⟨j, h⟩).Body ≠ [] :=
            hyp j (snakes.get ⟨j, h⟩) (le_refl j) hji hget hsqid
          have hz : ¬ (s.Body.length = 0 ∨
              (if j = i then s else snakes.get ⟨j, h⟩).Body.length = 0) := by
            rw [if_neg hji]
            rintro (hc | hc)
            · exact hbody (List.length_eq_zero.mp hc)
            · exact hobody (List.length_eq_zero.mp hc)
          have hs2 : growSnakeTo s (if j = i then s else snakes.get ⟨j, h⟩).Body.length =
              { s with Body := s.Body ++
                List.replicate ((snakes.get ⟨j, h⟩).Body.length - s.Body.length) t } := by
            rw [if_neg hji]
            exact growSnakeTo_eq s _ t ht
          have hshare : shareWithOther ss s (if j = i then s else snakes.get ⟨j, h⟩) =
              .ok { s with Body := s.Body ++
                List.replicate ((snakes.get ⟨j, h⟩).Body.length - s.Body.length) t } := by
            rw [shareWithOther_len_eq ss hl hh he, if_pos hsqs, if_neg hz, hs2]
          have hs2last :
              ({ s with
                  Body := s.Body ++
                    List.replicate ((snakes.get ⟨j, h⟩).Body.length - s.Body.length) t } :
                Snake).Body.getLast? = some t :=
            getLast?_append_replicate s.Body t _ ht
          obtain ⟨s', hs', hid, hhp, hc1, hc2, hc3, hext, hmono, hub, hatt⟩ :=
            ih (j + 1)
              { s with Body := s.Body ++
                List.replicate ((snakes.get ⟨j, h⟩).Body.length - s.Body.length) t } t
              (by omega) hs2last
              (fun k sk hjk hki hsome hsq => hyp k sk (by omega) hki hsome hsq)
          have hstep : shareInner ss snakes i j s = shareInner ss snakes i (j + 1)
              { s with Body := s.Body ++
                List.replicate ((snakes.get ⟨j, h⟩).Body.length - s.Body.length) t } := by
            rw [shareInner, dif_pos h, hshare]
          have hs2len : (s.Body ++
              List.replicate ((snakes.get ⟨j, h⟩).Body.length - s.Body.length) t).length =
              s.Body.length + ((snakes.get ⟨j, h⟩).Body.length - s.Body.length) := by
            simp
          refine ⟨s', by rw [hstep]; exact hs', hid, hhp, hc1, hc2, hc3, ?_, ?_, ?_, ?_⟩
          · -- body extension composes
            have hext' : s'.Body = s.Body ++
                List.replicate (((snakes.get ⟨j, h⟩).Body.length - s.Body.length) +
                  (s'.Body.length -
                    (s.Body.length +
                      ((snakes.get ⟨j, h⟩).Body.length - s.Body.length)))) t := by
              rw [List.replicate_add, ← List.append_assoc]
              simpa using hext
            have hlen' := congrArg List.length hext'
            simp only [List.length_append, List.length_replicate] at hlen'
            have hcount : s'.Body.length - s.Body.length =
                ((snakes.get ⟨j, h⟩).Body.length - s.Body.length) +
                  (s'.Body.length -
                    (s.Body.length +
                      ((snakes.get ⟨j, h⟩).Body.length - s.Body.length))) := by
              omega
            rw [hcount]
            exact hext'
          · have := hmono
            simp only [hs2len] at this
            omega
          · intro k sk hjk hki hsome hsq
            rcases Nat.eq_or_lt_of_le hjk with rfl | hlt
            · have hsk : sk = snakes.get ⟨j, h⟩ := by
                rw [hget] at hsome
                exact (Option.some.inj hsome).symm
              have := hmono
              simp only [hs2len] at this
              rw [hsk]
              omega
            · exact hub k sk hlt hki hsome hsq
          · rcases hatt with heq | ⟨k2, sk2, hk1, hk2, hk3, hk4, hk5⟩
            · by_cases hlonger : s.Body.length < (snakes.get ⟨j, h⟩).Body.length
              · refine Or.inr ⟨j, snakes.get ⟨j, h⟩, le_refl j, hji, hget, hsqid, ?_⟩
                rw [heq]
                simp only [hs2len]
                omega
              · refine Or.inl ?_
                rw [heq]
                simp only [hs2len]
                omega
            · exact Or.inr ⟨k2, sk2, by omega, hk2, hk3, hk4, hk5⟩
        · -- different squads: no-op
          have hshare : shareWithOther ss s (if j = i then s else snakes.get ⟨j, h⟩) =
              .ok s := by
            rw [shareWithOther_len_eq ss hl hh he, if_neg hsqs]
          obtain ⟨s', hs', hid, hhp, hc1, hc2, hc3, hext, hmono, hub, hatt⟩ :=
            ih (j + 1) s t (by omega) ht
              (fun k sk hjk hki hsome hsq => hyp k sk (by omega) hki hsome hsq)
          have hstep : shareInner ss snakes i j s = shareInner ss snakes i (j + 1) s := by
            rw [shareInner, dif_pos h, hshare]
          refine ⟨s', by rw [hstep]; exact hs', hid, hhp, hc1, hc2, hc3, hext, hmono, ?_, ?_⟩
          · intro k sk hjk hki hsome hsq
            rcases Nat.eq_or_lt_of_le hjk with rfl | hlt
            · exfalso
              apply hsqs
              rw [if_neg hki]
              have hsk : sk = snakes.get ⟨j, h⟩ := by
                rw [hget] at hsome
                exact (Option.some.inj hsome).symm
              show areSnakeIDsOnSameSquad ss.squadMap s.id (snakes.get ⟨j, h⟩).id = true
              rw [← hsk]
              exact hsq
            · exact hub k sk hlt hki hsome hsq
          · rcases hatt with heq | ⟨k2, sk2, hk1, hk2, hk3, hk4, hk5⟩
            · exact Or.inl heq
            · exact Or.inr ⟨k2, sk2, by omega, hk2, hk3, hk4, hk5⟩
    · exact exitCase j s t h

/-- With only `SharedLength` enabled, the outer loop fails whenever some
living snake at an index `≥ i`, or one of its same-squad snakes, has an
empty body. -/
theorem shareOuter_len_error (ss : SquadSettings) (hl : ss.SharedLength = true)
    (hh : ss.SharedHealth = false) (he : ss.SharedElimination = false) :
    ∀ (d : Nat) (snakes : List Snake) (i : Nat), snakes.length ≤ i + d →
      (∃ (k : Nat) (s0 : Snake), i ≤ k ∧ snakes[k]? = some s0 ∧
        s0.EliminatedCause = NotEliminated ∧
        ∃ (m : Nat) (sm : Snake), snakes[m]? = some sm ∧
          areSnakeIDsOnSameSquad ss.squadMap s0.id sm.id = true ∧
          (s0.Body = [] ∨ sm.Body = [])) →
      ∃ e, shareOuter ss snakes i = .error e := by
  intro d
  induction d with
  | zero =>
    intro snakes i hd ⟨k, s0, hik, hsome, _⟩
    exfalso
    have : k < snakes.length := (List.getElem?_eq_some.mp hsome).1
    omega
  | succ d ih =>
    intro snakes i hd ⟨k, s0, hik, hsome, hlive, m, sm, hm, hsq, hz⟩
    have hklen : k < snakes.length := (List.getElem?_eq_some.mp hsome).1
    have h : i < snakes.length := by omega
    have hgeti : snakes[i]? = some (snakes.get ⟨i, h⟩) := by
      rw [List.getElem?_eq_getElem h]
      simp
    by_cases hcase : (snakes.get ⟨i, h⟩).EliminatedCause = NotEliminated
    · have hcaseb : ((snakes.get ⟨i, h⟩).EliminatedCause == NotEliminated) = true :=
        beq_iff_eq.mpr hcase
      cases hres : shareInner ss snakes i 0 (snakes.get ⟨i, h⟩) with
      | error e =>
        refine ⟨e, ?_⟩
        rw [shareOuter, dif_pos h]
        simp only [hcaseb, Bool.not_true, Bool.false_eq_true, if_false, hres]
      | ok s' =>
        -- the inner loop succeeded for index i, so no zero-length snake sits
        -- on the squad of snakes[i]; the faulty pair must be ahead
        have hinoempty : (snakes.get ⟨i, h⟩).Body ≠ [] := by
          intro hcon
          obtain ⟨e, he'⟩ := shareInner_len_error_empty ss hl hh he snakes i h 0
            (snakes.get ⟨i, h⟩) (Nat.zero_le i) hcon
          rw [hres] at he'
          cases he'
        have hstep : shareOuter ss snakes i = shareOuter ss (snakes.set i s') (i + 1) := by
          rw [shareOuter, dif_pos h]
          simp only [hcaseb, Bool.not_true, Bool.false_eq_true, if_false, hres]
        rcases Nat.eq_or_lt_of_le hik with rfl | hklt
        · -- the living snake with the faulty pair is index i itself
          exfalso
          have hs0 : s0 = snakes.get ⟨i, h⟩ := by
            rw [hgeti] at hsome
            exact (Option.some.inj hsome).symm
          rcases hz with hz0 | hzm
          · rw [hs0] at hz0
            exact hinoempty hz0
          · by_cases hmi : m = i
            · rw [hmi, hgeti] at hm
              rw [Option.some.inj hm] at hinoempty
              exact hinoempty hzm
            · obtain ⟨e, he'⟩ := shareInner_len_error_witness ss hl hh he snakes i 0
                (snakes.get ⟨i, h⟩) hinoempty
                ⟨m, sm, Nat.zero_le m, hmi, hm, by rw [← hs0]; exact hsq, hzm⟩
              rw [hres] at he'
              cases he'
        · -- faulty pair ahead: recurse
          have hsome' : (snakes.set i s')[k]? = some s0 := by
            rw [List.getElem?_set_ne (by omega)]
            exact hsome
          have hwit : ∃ (m' : Nat) (sm' : Snake), (snakes.set i s')[m']? = some sm' ∧
              areSnakeIDsOnSameSquad ss.squadMap s0.id sm'.id = true ∧
              (s0.Body = [] ∨ sm'.Body = []) := by
            rcases hz with hz0 | hzm
            · exact ⟨k, s0, hsome', areSnakeIDs_refl ss.squadMap s0.id, Or.inl hz0⟩
            · by_cases hmi : m = i
              · exfalso
                rw [hmi, hgeti] at hm
                rw [Option.some.inj hm] at hinoempty
                exact hinoempty hzm
              · refine ⟨m, sm, ?_, hsq, Or.inr hzm⟩
                rw [List.getElem?_set_ne (fun hcon => hmi hcon.symm)]
                exact hm
          obtain ⟨m', sm', hm', hsq', hz'⟩ := hwit
          obtain ⟨e, he'⟩ := ih (snakes.set i s') (i + 1)
            (by rw [List.length_set]; omega)
            ⟨k, s0, by omega, hsome', hlive, m', sm', hm', hsq', hz'⟩
          refine ⟨e, ?_⟩
          rw [hstep]
          exact he'
    · -- eliminated at i: skipped
      have hcaseb : ((snakes.get ⟨i, h⟩).EliminatedCause == NotEliminated) = false :=
        beq_eq_false_iff_ne.mpr hcase
      have hstep : shareOuter ss snakes i = shareOuter ss snakes (i + 1) := by
        rw [shareOuter, dif_pos h]
        simp only [hcaseb, Bool.not_false, if_true]
      have hki : k ≠ i := by
        intro hki
        rw [hki, hgeti] at hsome
        rw [Option.some.inj hsome] at hcase
        exact hcase hlive
      obtain ⟨e, he'⟩ := ih snakes (i + 1) (by omega)
        ⟨k, s0, by omega, hsome, hlive, m, sm, hm, hsq, hz⟩
      refine ⟨e, ?_⟩
      rw [hstep]
      exact he'

/-- With only `SharedLength` enabled, when no living snake at an index `≥ i`
has an empty body or an empty-bodied same-squad snake, the outer loop
succeeds; snakes below `i` and eliminated snakes are untouched, and every
living snake's body is extended by copies of its original tail segment up to
the greatest body length found on its squad at loop entry. -/
theorem shareOuter_len_ok (ss : SquadSettings) (hl : ss.SharedLength = true)
    (hh : ss.SharedHealth = false) (he : ss.SharedElimination = false) :
    ∀ (d : Nat) (snakes : List Snake) (i : Nat), snakes.length ≤ i + d →
      (∀ (k : Nat) (s0 : Snake), i ≤ k → snakes[k]? = some s0 →
        s0.EliminatedCause = NotEliminated →
        ∀ (m : Nat) (sm : Snake), snakes[m]? = some sm →
          areSnakeIDsOnSameSquad ss.squadMap s0.id sm.id = true →
          s0.Body ≠ [] ∧ sm.Body ≠ []) →
      ∃ out, shareOuter ss snakes i = .ok out ∧
        out.length = snakes.length ∧
        (∀ k, k < i → out[k]? = snakes[k]?) ∧
        (∀ (k : Nat) (s0 : Snake), i ≤ k → snakes[k]? = some s0 →
          ∃ s1, out[k]? = some s1 ∧
            s1.id = s0.id ∧ s1.Health = s0.Health ∧ s1.EliminatedCause = s0.EliminatedCause ∧
            s1.EliminatedBy = s0.EliminatedBy ∧ s1.EliminatedOnTurn = s0.EliminatedOnTurn ∧
            (¬ s0.EliminatedCause = NotEliminated → s1 = s0) ∧
            (s0.EliminatedCause = NotEliminated →
              s0.Body.length ≤ s1.Body.length ∧
              (∃ t, s0.Body.getLast? = some t ∧
                s1.Body = s0.Body ++ List.replicate (s1.Body.length - s0.Body.length) t) ∧
              (∀ (m : Nat) (sm : Snake), snakes[m]? = some sm →
                areSnakeIDsOnSameSquad ss.squadMap s0.id sm.id = true →
                sm.Body.length ≤ s1.Body.length) ∧
              (∃ (m : Nat) (sm : Snake), snakes[m]? = some sm ∧
                areSnakeIDsOnSameSquad ss.squadMap s0.id sm.id = true ∧
                s1.Body.length = sm.Body.length))) := by
  intro d
  induction d with
  | zero =>
    intro snakes i hle _
    refine ⟨snakes, by rw [shareOuter, dif_neg (by omega)], rfl, fun k _ => rfl, ?_⟩
    intro k s0 hik hsome
    exfalso
    have : k < snakes.length := (List.getElem?_eq_some.mp hsome).1
    omega
  | succ d ih =>
    intro snakes i hle hyp
    by_cases h : i < snakes.length
    · have hgeti : snakes[i]? = some (snakes.get ⟨i, h⟩) := by
        rw [List.getElem?_eq_getElem h]
        simp
      by_cases hcase : (snakes.get ⟨i, h⟩).EliminatedCause = NotEliminated
      · -- living snake: grow it against the whole array
        have hcaseb : ((snakes.get ⟨i, h⟩).EliminatedCause == NotEliminated) = true :=
          beq_iff_eq.mpr hcase
        have hibody : (snakes.get ⟨i, h⟩).Body ≠ [] :=
          (hyp i (snakes.get ⟨i, h⟩) (le_refl i) hgeti hcase i (snakes.get ⟨i, h⟩) hgeti
            (areSnakeIDs_refl ss.squadMap _)).1
        obtain ⟨t, ht⟩ : ∃ t, (snakes.get ⟨i, h⟩).Body.getLast? = some t := by
          cases hgl : (snakes.get ⟨i, h⟩).Body.getLast? with
          | none => exact absurd (List.getLast?_eq_none_iff.mp hgl) hibody
          | some t => exact ⟨t, rfl⟩
        obtain ⟨s', hs', hid, hhp, hc1, hc2, hc3, hext, hmono, hub, hatt⟩ :=
          shareInner_len_ok ss hl hh he snakes i 0 (snakes.get ⟨i, h⟩) t ht
            (fun k sk _ _ hsome hsq =>
              (hyp i (snakes.get ⟨i, h⟩) (le_refl i) hgeti hcase k sk hsome hsq).2)
        have hs'body : s'.Body ≠ [] := by
          intro hcon
          have := congrArg List.length hcon
          rw [congrArg List.length hext] at this
          simp at this
          exact hibody this.1
        have hstep : shareOuter ss snakes i = shareOuter ss (snakes.set i s') (i + 1) := by
          rw [shareOuter, dif_pos h]
          simp only [hcaseb, Bool.not_true, Bool.false_eq_true, if_false, hs']
        have htrans : ∀ (k : Nat) (s0 : Snake), i + 1 ≤ k →
            (snakes.set i s')[k]? = some s0 → s0.EliminatedCause = NotEliminated →
            ∀ (m : Nat) (sm : Snake), (snakes.set i s')[m]? = some sm →
              areSnakeIDsOnSameSquad ss.squadMap s0.id sm.id = true →
              s0.Body ≠ [] ∧ sm.Body ≠ [] := by
          intro k s0 hik hsome hlive m sm hm hsq
          have hsome0 : snakes[k]? = some s0 := by
            rw [List.getElem?_set_ne (by omega)] at hsome
            exact hsome
          by_cases hmi : m = i
          · have hsm : sm = s' := by
              rw [hmi, List.getElem?_set_eq h] at hm
              exact (Option.some.inj hm).symm
            refine ⟨(hyp k s0 (by omega) hsome0 hlive k s0 hsome0
              (areSnakeIDs_refl ss.squadMap _)).1, ?_⟩
            rw [hsm]
            exact hs'body
          · have hm0 : snakes[m]? = some sm := by
              rw [List.getElem?_set_ne (fun hcon => hmi hcon.symm)] at hm
              exact hm
            exact hyp k s0 (by omega) hsome0 hlive m sm hm0 hsq
        obtain ⟨out, hout, hlen, hpre, hpt⟩ := ih (snakes.set i s') (i + 1)
          (by rw [List.length_set]; omega) htrans
        refine ⟨out, hstep ▸ hout, by rw [hlen, List.length_set], ?_, ?_⟩
        · intro k hk
          rw [hpre k (by omega), List.getElem?_set_ne (by omega)]
        · intro k s0 hik hsome
          rcases Nat.eq_or_lt_of_le hik with rfl | hklt
          · have hs0 : s0 = snakes.get ⟨i, h⟩ := by
              rw [hgeti] at hsome
              exact (Option.some.inj hsome).symm
            have houti : out[i]? = some s' := by
              rw [hpre i (by omega), List.getElem?_set_eq h]
            subst hs0
            refine ⟨s', houti, hid, hhp, hc1, hc2, hc3, ?_, ?_⟩
            · intro hne
              exact absurd hcase hne
            · intro _
              refine ⟨hmono, ⟨t, ht, hext⟩, ?_, ?_⟩
              · intro m sm hm hsq
                by_cases hmi : m = i
                · have hm' : sm = snakes.get ⟨i, h⟩ := by
                    rw [hmi, hgeti] at hm
                    exact (Option.some.inj hm).symm
                  rw [hm']
                  exact hmono
                · exact hub m sm (Nat.zero_le m) hmi hm hsq
              · rcases hatt with heq | ⟨k2, sk2, _, hk2i, hk2some, hk2sq, hk2eq⟩
                · exact ⟨i, snakes.get ⟨i, h⟩, hgeti,
                    areSnakeIDs_refl ss.squadMap _, heq⟩
                · exact ⟨k2, sk2, hk2some, hk2sq, hk2eq⟩
          · have hsome' : (snakes.set i s')[k]? = some s0 := by
              rw [List.getElem?_set_ne (by omega)]
              exact hsome
            obtain ⟨s1, hs1out, h1id, h1hp, h1c1, h1c2, h1c3, h1froz, h1live⟩ :=
              hpt k s0 (by omega) hsome'
            refine ⟨s1, hs1out, h1id, h1hp, h1c1, h1c2, h1c3, h1froz, ?_⟩
            intro hlive
            obtain ⟨h1mono, h1ext, hub', hatt'⟩ := h1live hlive
            refine ⟨h1mono, h1ext, ?_, ?_⟩
            · intro m sm hm hsq
              by_cases hmi : m = i
              · have hm' : sm = snakes.get ⟨i, h⟩ := by
                  rw [hmi, hgeti] at hm
                  exact (Option.some.inj hm).symm
                have hs'ub : s'.Body.length ≤ s1.Body.length := by
                  apply hub' i s'
                  · rw [List.getElem?_set_eq h]
                  · rw [hid, ← hm']
                    exact hsq
                calc sm.Body.length ≤ s'.Body.length := by rw [hm']; exact hmono
                  _ ≤ s1.Body.length := hs'ub
              · apply hub' m sm _ hsq
                rw [List.getElem?_set_ne (fun hcon => hmi hcon.symm)]
                exact hm
            · obtain ⟨m, sm, hm, hsq', heq'⟩ := hatt'
              by_cases hmi : m = i
              · have hsm : sm = s' := by
                  rw [hmi, List.getElem?_set_eq h] at hm
                  exact (Option.some.inj hm).symm
                have hsq0 : areSnakeIDsOnSameSquad ss.squadMap s0.id
                    (snakes.get ⟨i, h⟩).id = true := by
                  rw [hsm, hid] at hsq'
                  exact hsq'
                rcases hatt with heq | ⟨k2, sk2, _, hk2i, hk2some, hk2sq, hk2eq⟩
                · exact ⟨i, snakes.get ⟨i, h⟩, hgeti, hsq0, by rw [heq', hsm, heq]⟩
                · exact ⟨k2, sk2, hk2some,
                    areSnakeIDs_trans ss.squadMap _ _ _ hsq0 hk2sq,
                    by rw [heq', hsm, hk2eq]⟩
              · refine ⟨m, sm, ?_, hsq', heq'⟩
                rw [List.getElem?_set_ne (fun hcon => hmi hcon.symm)] at hm
                exact hm
      · -- eliminated snake: skipped
        have hcaseb : ((snakes.get ⟨i, h⟩).EliminatedCause == NotEliminated) = false :=
          beq_eq_false_iff_ne.mpr hcase
        have hstep : shareOuter ss snakes i = shareOuter ss snakes (i + 1) := by
          rw [shareOuter, dif_pos h]
          simp only [hcaseb, Bool.not_false, if_true]
        obtain ⟨out, hout, hlen, hpre, hpt⟩ := ih snakes (i + 1) (by omega)
          (fun k s0 hik hsome hlive m sm hm hsq =>
            hyp k s0 (by omega) hsome hlive m sm hm hsq)
        refine ⟨out, hstep ▸ hout, hlen, fun k hk => hpre k (by omega), ?_⟩
        intro k s0 hik hsome
        rcases Nat.eq_or_lt_of_le hik with rfl | hklt
        · have hs0 : s0 = snakes.get ⟨i, h⟩ := by
            rw [hgeti] at hsome
            exact (Option.some.inj hsome).symm
          have houti : out[i]? = some s0 := by
            rw [hpre i (by omega), hsome]
          refine ⟨s0, houti, rfl, rfl, rfl, rfl, rfl, fun _ => rfl, ?_⟩
          intro hlive
          rw [hs0] at hlive
          exact absurd hlive hcase
        · exact hpt k s0 (by omega) hsome
    · refine ⟨snakes, by rw [shareOuter, dif_neg h], rfl, fun k _ => rfl, ?_⟩
      intro k s0 hik hsome
      exfalso
      have : k < snakes.length := (List.getElem?_eq_some.mp hsome).1
      omega

/-- C6 (amended): with only `SharedLength` enabled on a non-initialization
turn, the stage fails exactly when some living snake or one of its
same-squad snakes has an empty body; otherwise it succeeds, touching only
bodies of living snakes, each extended by copies of its original tail
segment up to the greatest body length found on its squad at stage entry
(so any two *living* same-squad snakes end with equal lengths). -/
theorem shareAttributesSquad_sharedLength_correct (b : BoardState) (settings : Settings)
    (moves : List SnakeMove)
    (hinit : IsInitialisation b settings moves = false)
    (hl : settings.squadSettings.SharedLength = true)
    (hh : settings.squadSettings.SharedHealth = false)
    (he : settings.squadSettings.SharedElimination = false) :
    ((∃ (k : Nat) (s0 : Snake), b.Snakes[k]? = some s0 ∧
        s0.EliminatedCause = NotEliminated ∧
        ∃ (m : Nat) (sm : Snake), b.Snakes[m]? = some sm ∧
          areSnakeIDsOnSameSquad settings.squadSettings.squadMap s0.id sm.id = true ∧
          (s0.Body = [] ∨ sm.Body = [])) →
      ∃ e, ShareAttributesSquad b settings moves = .error e) ∧
    ((∀ (k : Nat) (s0 : Snake), b.Snakes[k]? = some s0 →
        s0.EliminatedCause = NotEliminated →
        ∀ (m : Nat) (sm : Snake), b.Snakes[m]? = some sm →
          areSnakeIDsOnSameSquad settings.squadSettings.squadMap s0.id sm.id = true →
          s0.Body ≠ [] ∧ sm.Body ≠ []) →
      ∃ b', ShareAttributesSquad b settings moves = .ok (false, b') ∧
        b'.Width = b.Width ∧ b'.Height = b.Height ∧ b'.Turn = b.Turn ∧
        b'.Food = b.Food ∧ b'.Hazards = b.Hazards ∧
        b'.Snakes.length = b.Snakes.length ∧
        (∀ (k : Nat) (s0 : Snake), b.Snakes[k]? = some s0 →
          ∃ s1, b'.Snakes[k]? = some s1 ∧
            s1.id = s0.id ∧ s1.Health = s0.Health ∧ s1.EliminatedCause = s0.EliminatedCause ∧
            s1.EliminatedBy = s0.EliminatedBy ∧ s1.EliminatedOnTurn = s0.EliminatedOnTurn ∧
            (¬ s0.EliminatedCause = NotEliminated → s1 = s0) ∧
            (s0.EliminatedCause = NotEliminated →
              s0.Body.length ≤ s1.Body.length ∧
              (∃ t, s0.Body.getLast? = some t ∧
                s1.Body = s0.Body ++ List.replicate (s1.Body.length - s0.Body.length) t) ∧
              (∀ (m : Nat) (sm : Snake), b.Snakes[m]? = some sm →
                areSnakeIDsOnSameSquad settings.squadSettings.squadMap s0.id sm.id = true →
                sm.Body.length ≤ s1.Body.length) ∧
              (∃ (m : Nat) (sm : Snake), b.Snakes[m]? = some sm ∧
                areSnakeIDsOnSameSquad settings.squadSettings.squadMap s0.id sm.id = true ∧
                s1.Body.length = sm.Body.length))) ∧
        (∀ (k k' : Nat) (sk sk' : Snake), b.Snakes[k]? = some sk →
          b.Snakes[k']? = some sk' → sk.EliminatedCause = NotEliminated →
          sk'.EliminatedCause = NotEliminated →
          areSnakeIDsOnSameSquad settings.squadSettings.squadMap sk.id sk'.id = true →
          ∃ s1 s1', b'.Snakes[k]? = some s1 ∧ b'.Snakes[k']? = some s1' ∧
            s1.Body.length = s1'.Body.length)) := by
  constructor
  · intro hwit
    obtain ⟨k, s0, hksome, hklive, m, sm, hm, hsq, hz⟩ := hwit
    obtain ⟨e, he'⟩ := shareOuter_len_error settings.squadSettings hl hh he
      b.Snakes.length b.Snakes 0 (by omega)
      ⟨k, s0, Nat.zero_le k, hksome, hklive, m, sm, hm, hsq, hz⟩
    refine ⟨e, ?_⟩
    unfold ShareAttributesSquad
    simp only [hinit, Bool.false_eq_true, if_false, he, hl, hh, Bool.or_false,
      Bool.false_or, Bool.or_true, Bool.true_or, Bool.not_true, he']
  · intro hyp
    obtain ⟨out, hout, hlen, _, hpt⟩ := shareOuter_len_ok settings.squadSettings hl hh he
      b.Snakes.length b.Snakes 0 (by omega)
      (fun k s0 _ hsome hlive m sm hm hsq => hyp k s0 hsome hlive m sm hm hsq)
    refine ⟨{ b with Snakes := out }, ?_, rfl, rfl, rfl, rfl, rfl, hlen, ?_, ?_⟩
    · unfold ShareAttributesSquad
      simp only [hinit, Bool.false_eq_true, if_false, he, hl, hh, Bool.or_false,
        Bool.false_or, Bool.or_true, Bool.true_or, Bool.not_true, hout]
    · intro k s0 hsome
      exact hpt k s0 (Nat.zero_le k) hsome
    · intro k k' sk sk' hks hk's hklive hk'live hsq
      obtain ⟨s1, hs1, _, _, _, _, _, _, hfacts⟩ := hpt k sk (Nat.zero_le k) hks
      obtain ⟨s1', hs1', _, _, _, _, _, _, hfacts'⟩ := hpt k' sk' (Nat.zero_le k') hk's
      obtain ⟨_, _, hub, hatt⟩ := hfacts hklive
      obtain ⟨_, _, hub', hatt'⟩ := hfacts' hk'live
      refine ⟨s1, s1', hs1, hs1', ?_⟩
      obtain ⟨m, sm, hm, hsqm, heqm⟩ := hatt
      obtain ⟨m', sm', hm', hsqm', heqm'⟩ := hatt'
      have h1 : s1.Body.length ≤ s1'.Body.length := by
        rw [heqm]
        exact hub' m sm hm
          (areSnakeIDs_trans settings.squadSettings.squadMap _ _ _
            (areSnakeIDs_symm settings.squadSettings.squadMap _ _ hsq) hsqm)
      have h2 : s1'.Body.length ≤ s1.Body.length := by
        rw [heqm']
        exact hub m' sm' hm'
          (areSnakeIDs_trans settings.squadSettings.squadMap _ _ _ hsq hsqm')
      omega

/-- C6 counterexample settings: only `SharedLength` enabled. -/
def cexLenSettings : Settings := exSettings (exSquadSettings false false false true)

/-- C6 counterexample board: living snake "a" with body length 3 and its
*eliminated* squad-mate "c" with body length 1 (no zero-length body
anywhere). -/
def cexLenBoard : BoardState :=
  exBoard [{ exSnakeA with Body := [⟨0, 0⟩, ⟨0, 1⟩, ⟨0, 2⟩] },
    { exSnakeC with EliminatedCause := EliminatedByOutOfHealth }]

/-- C6 counterexample: with only `SharedLength` enabled on a
non-initialization turn and no zero-length body on the board, the stage
succeeds but the same-squad pair "a"/"c" ends with body lengths 3 and 1:
the shorter snake of the pair is eliminated and is never grown, so the
lengths do not match, refuting the claim's "the shorter snake of each
same-squad pair is grown … until the lengths match" as stated. -/
theorem shareAttributesSquad_sharedLength_claim_counterexample :
    cexLenSettings.squadSettings.SharedLength = true ∧
    IsInitialisation cexLenBoard cexLenSettings exMoves = false ∧
    (∀ s ∈ cexLenBoard.Snakes, s.Body ≠ []) ∧
    (∀ s ∈ cexLenBoard.Snakes, ∀ s' ∈ cexLenBoard.Snakes,
      areSnakeIDsOnSameSquad cexLenSettings.squadSettings.squadMap s.id s'.id = true) ∧
    (∃ out, ShareAttributesSquad cexLenBoard cexLenSettings exMoves = .ok (false, out) ∧
      ¬ (∀ s ∈ out.Snakes, ∀ s' ∈ out.Snakes,
          areSnakeIDsOnSameSquad cexLenSettings.squadSettings.squadMap s.id s'.id = true →
          s.Body.length = s'.Body.length)) := by
  refine ⟨rfl, rfl, by decide, by decide, cexLenBoard, ?_, by decide⟩
  simp [ShareAttributesSquad, IsInitialisation, exMoves, shareOuter, shareInner,
    shareWithOther, growSnakeTo, cexLenBoard, cexLenSettings, exSquadSettings, exSquadMap,
    exBoard, exSettings, exSnakeA, exSnakeC, areSnakesOnSameSquad, areSnakeIDsOnSameSquad,
    mapGet]

/-- C6 witness: living squad-mates "a" (length 1) and "c" (length 3); the
stage grows "a" to length 3 by duplicating its tail segment. -/
theorem shareAttributesSquad_sharedLength_correct_witness :
    (let b := exBoard [exSnakeA, { exSnakeC with Body := [⟨5, 5⟩, ⟨5, 6⟩, ⟨5, 7⟩] }]
     let settings := exSettings (exSquadSettings false false false true)
     ((∃ (k : Nat) (s0 : Snake), b.Snakes[k]? = some s0 ∧
        s0.EliminatedCause = NotEliminated ∧
        ∃ (m : Nat) (sm : Snake), b.Snakes[m]? = some sm ∧
          areSnakeIDsOnSameSquad settings.squadSettings.squadMap s0.id sm.id = true ∧
          (s0.Body = [] ∨ sm.Body = [])) →
      ∃ e, ShareAttributesSquad b settings exMoves = .error e) ∧
    ((∀ (k : Nat) (s0 : Snake), b.Snakes[k]? = some s0 →
        s0.EliminatedCause = NotEliminated →
        ∀ (m : Nat) (sm : Snake), b.Snakes[m]? = some sm →
          areSnakeIDsOnSameSquad settings.squadSettings.squadMap s0.id sm.id = true →
          s0.Body ≠ [] ∧ sm.Body ≠ []) →
      ∃ b', ShareAttributesSquad b settings exMoves = .ok (false, b') ∧
        b'.Width = b.Width ∧ b'.Height = b.Height ∧ b'.Turn = b.Turn ∧
        b'.Food = b.Food ∧ b'.Hazards = b.Hazards ∧
        b'.Snakes.length = b.Snakes.length ∧
        (∀ (k : Nat) (s0 : Snake), b.Snakes[k]? = some s0 →
          ∃ s1, b'.Snakes[k]? = some s1 ∧
            s1.id = s0.id ∧ s1.Health = s0.Health ∧ s1.EliminatedCause = s0.EliminatedCause ∧
            s1.EliminatedBy = s0.EliminatedBy ∧ s1.EliminatedOnTurn = s0.EliminatedOnTurn ∧
            (¬ s0.EliminatedCause = NotEliminated → s1 = s0) ∧
            (s0.EliminatedCause = NotEliminated →
              s0.Body.length ≤ s1.Body.length ∧
              (∃ t, s0.Body.getLast? = some t ∧
                s1.Body = s0.Body ++ List.replicate (s1.Body.length - s0.Body.length) t) ∧
              (∀ (m : Nat) (sm : Snake), b.Snakes[m]? = some sm →
                areSnakeIDsOnSameSquad settings.squadSettings.squadMap s0.id sm.id = true →
                sm.Body.length ≤ s1.Body.length) ∧
              (∃ (m : Nat) (sm : Snake), b.Snakes[m]? = some sm ∧
                areSnakeIDsOnSameSquad settings.squadSettings.squadMap s0.id sm.id = true ∧
                s1.Body.length = sm.Body.length))) ∧
        (∀ (k k' : Nat) (sk sk' : Snake), b.Snakes[k]? = some sk →
          b.Snakes[k']? = some sk' → sk.EliminatedCause = NotEliminated →
          sk'.EliminatedCause = NotEliminated →
          areSnakeIDsOnSameSquad settings.squadSettings.squadMap sk.id sk'.id = true →
          ∃ s1 s1', b'.Snakes[k]? = some s1 ∧ b'.Snakes[k']? = some s1' ∧
            s1.Body.length = s1'.Body.length))) :=
  shareAttributesSquad_sharedLength_correct
    (exBoard [exSnakeA, { exSnakeC with Body := [⟨5, 5⟩, ⟨5, 6⟩, ⟨5, 7⟩] }])
    (exSettings (exSquadSettings false false false true)) exMoves rfl rfl rfl rfl

/-! ## C9: the full turn pipeline

The pipeline engine and the standard stages are library code the repository
calls but does not contain; they are modelled from the specification below
and composed with the squad stages embedded above from the source. -/

/-- The stage-function signature (spec §2: `(BoardState, Settings, Moves) →
(terminate: bool, error)`, with the mutated board made explicit). -/
def StageFunc : Type :=
  BoardState → Settings → List SnakeMove → Except String (Bool × BoardState)

/-- Modelled from the spec: `Pipeline.Execute` is not in the repository; the
spec runs the stages strictly in order on the board, stopping early when a
stage signals termination or fails. -/
def runPipeline : List StageFunc → BoardState → Settings → List SnakeMove →
    Except String (Bool × BoardState)
  | [], b, _, _ => .ok (false, b)
  | stage :: rest, b, settings, moves =>
    match stage b settings moves with
    | .error e => .error e
    | .ok (true, b') => .ok (true, b')
    | .ok (false, b') => runPipeline rest b' settings moves

/-- Direction vectors of the four legal moves. -/
def moveVector : String → Option Point
  | "up" => some ⟨0, 1⟩
  | "down" => some ⟨0, -1⟩
  | "left" => some ⟨-1, 0⟩
  | "right" => some ⟨1, 0⟩
  | _ => none

/-- Coordinate addition. -/
def pointAdd (p q : Point) : Point := ⟨p.x + q.x, p.y + q.y⟩

/-- Modelled from the spec: "the snake's last successful direction", read
off the head and neck segments; "up" when there is no history. -/
def lastDirection (s : Snake) : Point :=
  match s.Body with
  | head :: neck :: _ => ⟨head.x - neck.x, head.y - neck.y⟩
  | _ => ⟨0, 1⟩

/-- Modelled from the spec: a move is a reversal when the new head would
land on the snake's own neck. -/
def isNeckReversal (s : Snake) (v : Point) : Bool :=
  match s.Body with
  | head :: neck :: _ => pointAdd head v == neck
  | _ => false

/-- Modelled from the spec (§4.2.1): move one living snake — new head = old
head + direction, prepended; the tail segment is dropped (growth is realized
by the eat stage duplicating the tail).  A missing move for a living snake
is an error; an invalid or reversing move falls back to the last
direction. -/
def moveSnake (moves : List SnakeMove) (s : Snake) : Except String Snake :=
  if !(s.EliminatedCause == NotEliminated) then .ok s
  else
    match moves.find? (fun mv => mv.id == s.id) with
    | none => .error "move not provided for snake"
    | some mv =>
      match s.Body with
      | [] => .error "snake is length zero"
      | head :: rest =>
        let dir :=
          match moveVector mv.Move with
          | some v => if isNeckReversal s v then lastDirection s else v
          | none => lastDirection s
        .ok { s with Body := pointAdd head dir :: (head :: rest).dropLast }

/-- The movement loop over the snake array. -/
def moveSnakes (moves : List SnakeMove) : List Snake → Except String (List Snake)
  | [] => .ok []
  | s :: rest =>
    match moveSnake moves s with
    | .error e => .error e
    | .ok s' =>
      match moveSnakes moves rest with
      | .error e => .error e
      | .ok rest' => .ok (s' :: rest')

/-- Modelled from the spec: the standard movement stage. -/
def MoveSnakesStandard (b : BoardState) (_settings : Settings) (moves : List SnakeMove) :
    Except String (Bool × BoardState) :=
  match moveSnakes moves b.Snakes with
  | .error e => .error e
  | .ok snakes => .ok (false, { b with Snakes := snakes })

/-- Modelled from the spec (§4.2.2): decrement a living snake's health by
one, marking it `OutOfHealth` when the result is `≤ 0`. -/
def reduceHealthSnake (turn : Int) (s : Snake) : Snake :=
  if !(s.EliminatedCause == NotEliminated) then s
  else if s.Health - 1 ≤ 0 then
    { s with
      Health := s.Health - 1
      EliminatedCause := EliminatedByOutOfHealth
      EliminatedBy := ""
      EliminatedOnTurn := turn }
  else { s with Health := s.Health - 1 }

/-- Modelled from the spec: the standard health-reduction stage. -/
def ReduceSnakeHealthStandard (b : BoardState) (_settings : Settings)
    (_moves : List SnakeMove) : Except String (Bool × BoardState) :=
  .ok (false, { b with Snakes := b.Snakes.map (reduceHealthSnake b.Turn) })

/-- Modelled from the spec (§4.2.3): subtract the hazard damage from a
living snake whose head occupies a hazard cell, re-checking out-of-health. -/
def hazardDamageSnake (damage : Int) (hazards : List Point) (turn : Int) (s : Snake) : Snake :=
  if !(s.EliminatedCause == NotEliminated) then s
  else
    match s.Body.head? with
    | none => s
    | some head =>
      if hazards.contains head then
        if s.Health - damage ≤ 0 then
          { s with
            Health := s.Health - damage
            EliminatedCause := EliminatedByOutOfHealth
            EliminatedBy := ""
            EliminatedOnTurn := turn }
        else { s with Health := s.Health - damage }
      else s

/-- Modelled from the spec: the standard hazard-damage stage. -/
def DamageHazardsStandard (b : BoardState) (settings : Settings) (_moves : List SnakeMove) :
    Except String (Bool × BoardState) :=
  .ok (false,
    { b with
      Snakes := b.Snakes.map (hazardDamageSnake settings.HazardDamagePerTurn b.Hazards b.Turn) })

/-- Modelled from the spec (§4.2.4): feed the snakes in board order — a
living snake whose head is on a food cell removes that food (first snake in
order wins), resets its health to 100, and grows by duplicating its tail
segment. -/
def feedSnakes : List Snake → List Point → List Snake × List Point
  | [], food => ([], food)
  | s :: rest, food =>
    if !(s.EliminatedCause == NotEliminated) then
      let (rest', food') := feedSnakes rest food
      (s :: rest', food')
    else
      match s.Body.head? with
      | none =>
        let (rest', food') := feedSnakes rest food
        (s :: rest', food')
      | some head =>
        if food.contains head then
          let fed :=
            match s.Body.getLast? with
            | some t => { s with Health := 100, Body := s.Body ++ [t] }
            | none => { s with Health := 100 }
          let (rest', food') := feedSnakes rest (food.erase head)
          (fed :: rest', food')
        else
          let (rest', food') := feedSnakes rest food
          (s :: rest', food')

/-- Modelled from the spec: the standard eat-food stage. -/
def FeedSnakesStandard (b : BoardState) (_settings : Settings) (_moves : List SnakeMove) :
    Except String (Bool × BoardState) :=
  let (snakes, food) := feedSnakes b.Snakes b.Food
  .ok (false, { b with Snakes := snakes, Food := food })

/-- Modelled from the spec (§4.2.5): food spawning is probabilistic; the
randomness is abstracted into the list of food points spawned this turn,
universally quantified in the theorems that use it. -/
def PlaceFoodStandard (spawn : List Point) (b : BoardState) (_settings : Settings)
    (_moves : List SnakeMove) : Except String (Bool × BoardState) :=
  .ok (false, { b with Food := b.Food ++ spawn })

/-- A head outside the board bounds (spec §4.2.6 (a)). -/
def snakeOutOfBounds (b : BoardState) (head : Point) : Bool :=
  head.x < 0 || b.Width ≤ head.x || head.y < 0 || b.Height ≤ head.y

/-- Modelled from the spec (§4.2.6): classify one not-yet-eliminated snake
against the stage-entry snapshot, in the spec's precedence: wall, self
collision, body collision (culprit recorded), head-to-head (eliminated by a
snake at least as long). -/
def eliminateSnake (b : BoardState) (snapshot : List Snake) (s : Snake) : Snake :=
  if !(s.EliminatedCause == NotEliminated) then s
  else
    match s.Body.head? with
    | none => s
    | some head =>
      if snakeOutOfBounds b head then
        { s with
          EliminatedCause := EliminatedByOutOfBounds
          EliminatedBy := ""
          EliminatedOnTurn := b.Turn }
      else if s.Body.tail.contains head then
        { s with
          EliminatedCause := EliminatedBySelfCollision
          EliminatedBy := s.id
          EliminatedOnTurn := b.Turn }
      else
        match snapshot.find? (fun o => o.id != s.id && o.EliminatedCause == NotEliminated &&
            o.Body.tail.contains head) with
        | some o =>
          { s with
            EliminatedCause := EliminatedByCollision
            EliminatedBy := o.id
            EliminatedOnTurn := b.Turn }
        | none =>
          match snapshot.find? (fun o => o.id != s.id && o.EliminatedCause == NotEliminated &&
              o.Body.head? == some head && s.Body.length ≤ o.Body.length) with
          | some o =>
            { s with
              EliminatedCause := EliminatedByHeadToHeadCollision
              EliminatedBy := o.id
              EliminatedOnTurn := b.Turn }
          | none => s

/-- Modelled from the spec: the standard elimination stage, computed from a
snapshot of the boards' snakes taken at stage entry. -/
def EliminateSnakesStandard (b : BoardState) (_settings : Settings)
    (_moves : List SnakeMove) : Except String (Bool × BoardState) :=
  .ok (false, { b with Snakes := b.Snakes.map (eliminateSnake b b.Snakes) })

/-- The squad pipeline's stage sequence, as listed in `SquadRuleset.Pipeline`
in the source: standard movement, health, hazard, food and elimination
stages, then the squad collision and sharing stages, then squad game
over. -/
def squadPipelineStages (spawn : List Point) : List StageFunc :=
  [MoveSnakesStandard, ReduceSnakeHealthStandard, DamageHazardsStandard, FeedSnakesStandard,
    PlaceFoodStandard spawn, EliminateSnakesStandard, ResurrectSnakesSquad,
    ShareAttributesSquad, GameOverSquad]

/-- `SquadRuleset.CreateNextBoardState` from the squad file: build the
pipeline and execute it once, returning the resulting state (the terminate
flag is discarded). -/
def SquadRuleset.CreateNextBoardState (r : SquadRuleset) (spawn : List Point)
    (prevState : BoardState) (moves : List SnakeMove) : Except String BoardState :=
  match runPipeline (squadPipelineStages spawn) prevState r.Settings moves with
  | .error e => .error e
  | .ok (_, nextState) => .ok nextState

/-- `GameState.createNextBoardState` from `cli/commands/play.go`, with a
squad ruleset installed: run the ruleset's `CreateNextBoardState`, apply the
map hook `maps.UpdateBoard` (an external collaborator which, per spec §6,
may only add or move hazards — modelled as an arbitrary hazard rewrite),
then increment the turn counter.  The driver's `log.Fatalf` on a ruleset
error is modelled as error propagation. -/
def createNextBoardState (r : SquadRuleset) (spawn : List Point)
    (updateHazards : BoardState → List Point) (b : BoardState) (moves : List SnakeMove) :
    Except String BoardState :=
  match r.CreateNextBoardState spawn b moves with
  | .error e => .error e
  | .ok next => .ok { next with Hazards := updateHazards next, Turn := next.Turn + 1 }

/-- A pointwise-identity map leaves a list unchanged. -/
theorem map_eq_self_of_forall {α : Type} (f : α → α) (l : List α) (h : ∀ x ∈ l, f x = x) :
    l.map f = l := by
  induction l with
  | nil => rfl
  | cons a rest ih =>
    rw [List.map_cons, h a (List.mem_cons_self a rest),
      ih (fun x hx => h x (List.mem_cons_of_mem a hx))]

/-- Movement leaves a roster of eliminated snakes untouched. -/
theorem moveSnakes_dead (moves : List SnakeMove) (l : List Snake)
    (h : ∀ s ∈ l, s.EliminatedCause ≠ NotEliminated) : moveSnakes moves l = .ok l := by
  induction l with
  | nil => rfl
  | cons s rest ih =>
    have hs : moveSnake moves s = .ok s := by
      unfold moveSnake
      rw [beq_eq_false_iff_ne.mpr (h s (List.mem_cons_self s rest))]
      rfl
    unfold moveSnakes
    rw [hs, ih (fun x hx => h x (List.mem_cons_of_mem s hx))]

/-- Feeding leaves a roster of eliminated snakes, and the food, untouched. -/
theorem feedSnakes_dead (l : List Snake) (food : List Point)
    (h : ∀ s ∈ l, s.EliminatedCause ≠ NotEliminated) : feedSnakes l food = (l, food) := by
  induction l with
  | nil => rfl
  | cons s rest ih =>
    unfold feedSnakes
    rw [beq_eq_false_iff_ne.mpr (h s (List.mem_cons_self s rest))]
    simp only [Bool.not_false, if_true]
    rw [ih (fun x hx => h x (List.mem_cons_of_mem s hx))]

/-- C9: on a board where every snake is already eliminated, running the
squad ruleset's `CreateNextBoardState` with an empty move list (as the
driver does when no snake is alive) succeeds and leaves every snake — and
the turn counter — untouched, whatever food the spawn oracle adds; the
driver's `createNextBoardState` then returns that board with the turn
counter incremented by exactly one and the snakes still unchanged. -/
theorem createNextBoardState_no_living_snakes (r : SquadRuleset) (spawn : List Point)
    (updateHazards : BoardState → List Point) (b : BoardState)
    (hdead : ∀ s ∈ b.Snakes, s.EliminatedCause ≠ NotEliminated) :
    (∃ bn, SquadRuleset.CreateNextBoardState r spawn b [] = .ok bn ∧
      bn.Turn = b.Turn ∧ bn.Snakes = b.Snakes ∧
      bn.Width = b.Width ∧ bn.Height = b.Height) ∧
    (∃ b', createNextBoardState r spawn updateHazards b [] = .ok b' ∧
      b'.Turn = b.Turn + 1 ∧ b'.Snakes = b.Snakes ∧
      b'.Width = b.Width ∧ b'.Height = b.Height) := by
  have hmid : ∀ s ∈ ({ b with Food := b.Food ++ spawn } : BoardState).Snakes,
      s.EliminatedCause ≠ NotEliminated := hdead
  have h1 : MoveSnakesStandard b r.Settings [] = .ok (false, b) := by
    unfold MoveSnakesStandard
    rw [moveSnakes_dead [] b.Snakes hdead]
  have h2 : ReduceSnakeHealthStandard b r.Settings [] = .ok (false, b) := by
    unfold ReduceSnakeHealthStandard
    rw [map_eq_self_of_forall _ _ (fun s hs => by
      unfold reduceHealthSnake
      rw [beq_eq_false_iff_ne.mpr (hdead s hs)]
      rfl)]
  have h3 : DamageHazardsStandard b r.Settings [] = .ok (false, b) := by
    unfold DamageHazardsStandard
    rw [map_eq_self_of_forall _ _ (fun s hs => by
      unfold hazardDamageSnake
      rw [beq_eq_false_iff_ne.mpr (hdead s hs)]
      rfl)]
  have h4 : FeedSnakesStandard b r.Settings [] = .ok (false, b) := by
    unfold FeedSnakesStandard
    rw [feedSnakes_dead b.Snakes b.Food hdead]
  have h5 : PlaceFoodStandard spawn b r.Settings [] =
      .ok (false, { b with Food := b.Food ++ spawn }) := rfl
  have h6 : EliminateSnakesStandard { b with Food := b.Food ++ spawn } r.Settings [] =
      .ok (false, { b with Food := b.Food ++ spawn }) := by
    unfold EliminateSnakesStandard
    rw [map_eq_self_of_forall _ _ (fun s hs => by
      unfold eliminateSnake
      rw [beq_eq_false_iff_ne.mpr (hmid s hs)]
      rfl)]
  have h7 : ResurrectSnakesSquad { b with Food := b.Food ++ spawn } r.Settings [] =
      .ok (false, { b with Food := b.Food ++ spawn }) := by
    unfold ResurrectSnakesSquad
    rfl
  have h8 : ShareAttributesSquad { b with Food := b.Food ++ spawn } r.Settings [] =
      .ok (false, { b with Food := b.Food ++ spawn }) := by
    unfold ShareAttributesSquad
    rfl
  have h9 : GameOverSquad { b with Food := b.Food ++ spawn } r.Settings [] =
      .ok (true, { b with Food := b.Food ++ spawn }) := by
    unfold GameOverSquad
    have hfil : ({ b with Food := b.Food ++ spawn } : BoardState).Snakes.filter
        (fun s => s.EliminatedCause == NotEliminated) = [] := by
      rw [List.filter_eq_nil]
      intro s hs
      rw [beq_eq_false_iff_ne.mpr (hmid s hs)]
      exact Bool.false_ne_true
    rw [hfil]
  have hpipe : runPipeline (squadPipelineStages spawn) b r.Settings [] =
      .ok (true, { b with Food := b.Food ++ spawn }) := by
    unfold squadPipelineStages
    simp only [runPipeline, h1, h2, h3, h4, h5, h6, h7, h8, h9]
  have hnext : SquadRuleset.CreateNextBoardState r spawn b [] =
      .ok { b with Food := b.Food ++ spawn } := by
    unfold SquadRuleset.CreateNextBoardState
    rw [hpipe]
  have hdrv : createNextBoardState r spawn updateHazards b [] =
      .ok { b with
        Food := b.Food ++ spawn
        Hazards := updateHazards { b with Food := b.Food ++ spawn }
        Turn := b.Turn + 1 } := by
    unfold createNextBoardState
    rw [hnext]
  exact ⟨⟨{ b with Food := b.Food ++ spawn }, hnext, rfl, rfl, rfl, rfl⟩,
    ⟨_, hdrv, rfl, rfl, rfl, rfl⟩⟩

/-- C9 witness: a board holding a single out-of-health snake, an arbitrary
spawn of one food point and a hazard hook clearing all hazards. -/
theorem createNextBoardState_no_living_snakes_witness :
    (∃ bn, SquadRuleset.CreateNextBoardState
        { standardSettings := exSettings (exSquadSettings false false false false),
          SquadMap := exSquadMap, AllowBodyCollisions := false, SharedElimination := false,
          SharedHealth := false, SharedLength := false } [⟨2, 2⟩] (exBoard [exSnakeB]) [] =
          .ok bn ∧
      bn.Turn = (exBoard [exSnakeB]).Turn ∧ bn.Snakes = (exBoard [exSnakeB]).Snakes ∧
      bn.Width = (exBoard [exSnakeB]).Width ∧ bn.Height = (exBoard [exSnakeB]).Height) ∧
    (∃ b', createNextBoardState
        { standardSettings := exSettings (exSquadSettings false false false false),
          SquadMap := exSquadMap, AllowBodyCollisions := false, SharedElimination := false,
          SharedHealth := false, SharedLength := false } [⟨2, 2⟩] (fun _ => [])
        (exBoard [exSnakeB]) [] = .ok b' ∧
      b'.Turn = (exBoard [exSnakeB]).Turn + 1 ∧ b'.Snakes = (exBoard [exSnakeB]).Snakes ∧
      b'.Width = (exBoard [exSnakeB]).Width ∧ b'.Height = (exBoard [exSnakeB]).Height) :=
  createNextBoardState_no_living_snakes
    { standardSettings := exSettings (exSquadSettings false false false false),
      SquadMap := exSquadMap, AllowBodyCollisions := false, SharedElimination := false,
      SharedHealth := false, SharedLength := false } [⟨2, 2⟩] (fun _ => [])
    (exBoard [exSnakeB]) (by decide)
